import Mathlib

/-!
Verification of the JSON2OPM comparison/merge core.

The Python source (src/json2opm/app_ui.py, src/json2opm/mapper.py) is
shallowly embedded here: JSON document trees become the `Json` inductive,
Python dicts become insertion-ordered association lists, numeric values
become exact rationals, fallible code returns `Except`/`Option`, and each
extraction or merge routine is translated statement by statement.
-/

namespace J2O

/-- A JSON document tree, as produced by `json.load`.  Python dicts are
modelled as insertion-ordered association lists; Python has distinct int,
float and bool runtime types but the code under verification only ever
distinguishes them through `isinstance` checks that accept all numerics,
so `num` carries an exact rational and `bool` is kept separate. -/
inductive Json where
  | null : Json
  | bool (b : Bool) : Json
  | num (q : ℚ) : Json
  | str (s : String) : Json
  | arr (items : List Json) : Json
  | obj (fields : List (String × Json)) : Json
deriving Repr

mutual

/-- Decidable equality on JSON trees (the derive handler does not support
this nested inductive, so it is spelled out). -/
def decEqJson : (a b : Json) → Decidable (a = b)
  | .null, .null => .isTrue rfl
  | .bool x, .bool y =>
    match decEq x y with
    | .isTrue h => .isTrue (by rw [h])
    | .isFalse h => .isFalse (fun hh => h (Json.bool.inj hh))
  | .num x, .num y =>
    match decEq x y with
    | .isTrue h => .isTrue (by rw [h])
    | .isFalse h => .isFalse (fun hh => h (Json.num.inj hh))
  | .str x, .str y =>
    match decEq x y with
    | .isTrue h => .isTrue (by rw [h])
    | .isFalse h => .isFalse (fun hh => h (Json.str.inj hh))
  | .arr xs, .arr ys =>
    match decEqJsonList xs ys with
    | .isTrue h => .isTrue (by rw [h])
    | .isFalse h => .isFalse (fun hh => h (Json.arr.inj hh))
  | .obj xs, .obj ys =>
    match decEqJsonKVs xs ys with
    | .isTrue h => .isTrue (by rw [h])
    | .isFalse h => .isFalse (fun hh => h (Json.obj.inj hh))
  | .null, .bool _ => .isFalse (fun h => Json.noConfusion h)
  | .null, .num _ => .isFalse (fun h => Json.noConfusion h)
  | .null, .str _ => .isFalse (fun h => Json.noConfusion h)
  | .null, .arr _ => .isFalse (fun h => Json.noConfusion h)
  | .null, .obj _ => .isFalse (fun h => Json.noConfusion h)
  | .bool _, .null => .isFalse (fun h => Json.noConfusion h)
  | .bool _, .num _ => .isFalse (fun h => Json.noConfusion h)
  | .bool _, .str _ => .isFalse (fun h => Json.noConfusion h)
  | .bool _, .arr _ => .isFalse (fun h => Json.noConfusion h)
  | .bool _, .obj _ => .isFalse (fun h => Json.noConfusion h)
  | .num _, .null => .isFalse (fun h => Json.noConfusion h)
  | .num _, .bool _ => .isFalse (fun h => Json.noConfusion h)
  | .num _, .str _ => .isFalse (fun h => Json.noConfusion h)
  | .num _, .arr _ => .isFalse (fun h => Json.noConfusion h)
  | .num _, .obj _ => .isFalse (fun h => Json.noConfusion h)
  | .str _, .null => .isFalse (fun h => Json.noConfusion h)
  | .str _, .bool _ => .isFalse (fun h => Json.noConfusion h)
  | .str _, .num _ => .isFalse (fun h => Json.noConfusion h)
  | .str _, .arr _ => .isFalse (fun h => Json.noConfusion h)
  | .str _, .obj _ => .isFalse (fun h => Json.noConfusion h)
  | .arr _, .null => .isFalse (fun h => Json.noConfusion h)
  | .arr _, .bool _ => .isFalse (fun h => Json.noConfusion h)
  | .arr _, .num _ => .isFalse (fun h => Json.noConfusion h)
  | .arr _, .str _ => .isFalse (fun h => Json.noConfusion h)
  | .arr _, .obj _ => .isFalse (fun h => Json.noConfusion h)
  | .obj _, .null => .isFalse (fun h => Json.noConfusion h)
  | .obj _, .bool _ => .isFalse (fun h => Json.noConfusion h)
  | .obj _, .num _ => .isFalse (fun h => Json.noConfusion h)
  | .obj _, .str _ => .isFalse (fun h => Json.noConfusion h)
  | .obj _, .arr _ => .isFalse (fun h => Json.noConfusion h)

/-- Decidable equality on JSON lists. -/
def decEqJsonList : (a b : List Json) → Decidable (a = b)
  | [], [] => .isTrue rfl
  | [], _ :: _ => .isFalse (fun h => List.noConfusion h)
  | _ :: _, [] => .isFalse (fun h => List.noConfusion h)
  | x :: xs, y :: ys =>
    match decEqJson x y with
    | .isFalse h => .isFalse (fun hh => h (List.cons.inj hh).1)
    | .isTrue h1 =>
      match decEqJsonList xs ys with
      | .isTrue h2 => .isTrue (by rw [h1, h2])
      | .isFalse h => .isFalse (fun hh => h (List.cons.inj hh).2)

/-- Decidable equality on JSON key/value lists. -/
def decEqJsonKVs : (a b : List (String × Json)) → Decidable (a = b)
  | [], [] => .isTrue rfl
  | [], _ :: _ => .isFalse (fun h => List.noConfusion h)
  | _ :: _, [] => .isFalse (fun h => List.noConfusion h)
  | (k, v) :: xs, (k2, v2) :: ys =>
    match decEq k k2 with
    | .isFalse h => .isFalse (fun hh => h (Prod.mk.inj (List.cons.inj hh).1).1)
    | .isTrue hk =>
      match decEqJson v v2 with
      | .isFalse h => .isFalse (fun hh => h (Prod.mk.inj (List.cons.inj hh).1).2)
      | .isTrue hv =>
        match decEqJsonKVs xs ys with
        | .isTrue h2 => .isTrue (by rw [hk, hv, h2])
        | .isFalse h => .isFalse (fun hh => h (List.cons.inj hh).2)

end

instance : DecidableEq Json := decEqJson

instance {ε α : Type} [DecidableEq ε] [DecidableEq α] : DecidableEq (Except ε α) := fun a b =>
  match a, b with
  | .ok x, .ok y =>
    match decEq x y with
    | .isTrue h => .isTrue (by rw [h])
    | .isFalse h => .isFalse (fun hh => h (Except.ok.inj hh))
  | .error x, .error y =>
    match decEq x y with
    | .isTrue h => .isTrue (by rw [h])
    | .isFalse h => .isFalse (fun hh => h (Except.error.inj hh))
  | .ok _, .error _ => .isFalse (fun hh => Except.noConfusion hh)
  | .error _, .ok _ => .isFalse (fun hh => Except.noConfusion hh)

/-- First-occurrence lookup in a dict, i.e. Python `d[k]` / `d.get(k)`
(Python dicts have unique keys, so first-occurrence agrees with dict
semantics on all real inputs). -/
def jLookup : List (String × Json) → String → Option Json
  | [], _ => none
  | (k', v') :: rest, k => if k' = k then some v' else jLookup rest k

/-- Python `k in d`. -/
def hasKey (d : List (String × Json)) (k : String) : Bool :=
  (jLookup d k).isSome

/-- Python `d[k] = v`: replace the binding in place if present, else append
at the end (dict insertion-order semantics). -/
def dictSet : List (String × Json) → String → Json → List (String × Json)
  | [], k, v => [(k, v)]
  | (k', v') :: rest, k, v =>
    if k' = k then (k, v) :: rest else (k', v') :: dictSet rest k v

/-- Python `d.pop(k, None)`: remove the binding for `k` (removes every
occurrence; on unique-key dicts this agrees with Python). -/
def dictRemove (d : List (String × Json)) (k : String) : List (String × Json) :=
  d.filter (fun kv => kv.1 ≠ k)

/-- Python truthiness of a JSON value (`if v:`). -/
def jTruthy : Json → Bool
  | .null => false
  | .bool b => b
  | .num q => q ≠ 0
  | .str s => s ≠ ""
  | .arr xs => ¬ xs.isEmpty
  | .obj kvs => ¬ kvs.isEmpty

/-! ### Python string and number primitives -/

/-- An ASCII decimal digit.  Python's `str.isdigit` also accepts some
non-ASCII Unicode digits; the identifiers and index labels handled by this
program are ASCII, where the two notions agree. -/
def isAsciiDigit (c : Char) : Bool := '0' ≤ c && c ≤ '9'

/-- Python `s.isdigit()` on ASCII strings: nonempty and all digits. -/
def pyIsDigit (s : String) : Bool :=
  !s.data.isEmpty && s.data.all isAsciiDigit

/-- Value of a decimal digit character. -/
def digitVal (c : Char) : Nat := c.toNat - 48

/-- Python `int(s)` on a string that passed `.isdigit()`. -/
def pyStrToNat (s : String) : Nat :=
  s.data.foldl (fun acc c => acc * 10 + digitVal c) 0

/-- The decimal digit character for `d < 10`. -/
def decDigit (d : Nat) : Char :=
  if d = 0 then '0' else if d = 1 then '1' else if d = 2 then '2'
  else if d = 3 then '3' else if d = 4 then '4' else if d = 5 then '5'
  else if d = 6 then '6' else if d = 7 then '7' else if d = 8 then '8'
  else '9'

/-- Digits of `n`, most significant first (empty for 0), by structural fuel
recursion (`fuel ≥ n` suffices, since `n / 10 < n` for positive `n`). -/
def toDecimalFuel : Nat → Nat → List Char
  | 0, _ => []
  | fuel + 1, n =>
    if n = 0 then [] else toDecimalFuel fuel (n / 10) ++ [decDigit (n % 10)]

/-- Python `str(n)` for a natural number: standard decimal notation. -/
def toDecimal (n : Nat) : String :=
  if n = 0 then "0" else ⟨toDecimalFuel n n⟩

/-- Decimal notation for an integer. -/
def intRepr (n : ℤ) : String :=
  if n < 0 then "-" ++ toDecimal n.natAbs else toDecimal n.natAbs

/-- Python `int(x)` on a float: truncation toward zero. -/
def pyIntOfRat (q : ℚ) : ℤ :=
  (Int.ofNat (q.num.natAbs / q.den)) * (if q.num < 0 then -1 else 1)

/-- Python `str.strip()`: drop whitespace from both ends. -/
def pyStrip (cs : List Char) : List Char :=
  ((cs.dropWhile Char.isWhitespace).reverse.dropWhile Char.isWhitespace).reverse

/-- `s.replace(" ", "_")` from `_normalize_polarity`. -/
def spaceToUnderscore (cs : List Char) : List Char :=
  cs.map (fun c => if c = ' ' then '_' else c)

/-- Fixpoint of the `while "__" in s: s = s.replace("__", "_")` loop from
`_normalize_polarity`: every run of underscores becomes a single
underscore. -/
def collapseUU : List Char → List Char
  | [] => []
  | [c] => [c]
  | c1 :: c2 :: rest =>
    if c1 = '_' && c2 = '_' then collapseUU (c2 :: rest)
    else c1 :: collapseUU (c2 :: rest)

/-- `_normalize_polarity` on a string value: strip, unify separators,
collapse double underscores.  Note that it never changes letter case. -/
def normalizePolarity (s : String) : String :=
  ⟨collapseUU (spaceToUnderscore (pyStrip s.data))⟩

/-- A fragment of Python `str(v)`: faithful on JSON scalars.  The code under
verification only ever stringifies polarity/verdict/status values, which are
strings in every schema it handles; the rendering of containers and
non-integral numbers is abstracted (no claim depends on it). -/
def pyStr : Json → String
  | .str s => s
  | .null => "None"
  | .bool true => "True"
  | .bool false => "False"
  | .num q => if q.den = 1 then intRepr q.num else intRepr q.num ++ ".fractional"
  | .arr _ => "[list]"
  | .obj _ => "[dict]"

/-- Python `float(s)` on simple decimal literals: optional sign, integer
part, optional fractional part (a subset of Python's full float syntax;
the documents handled here store lengths as JSON numbers, strings of this
shape, or null). -/
def parseDecimal (s : String) : Option ℚ :=
  let cs := pyStrip s.data
  let sgn : ℚ := if cs.head? = some '-' then -1 else 1
  let cs := if cs.head? = some '-' || cs.head? = some '+' then cs.tail else cs
  let ip := cs.takeWhile isAsciiDigit
  let rest := cs.dropWhile isAsciiDigit
  let ipVal : ℚ := (ip.foldl (fun acc c => acc * 10 + digitVal c) 0 : ℕ)
  match rest with
  | [] => if ip.isEmpty then none else some (sgn * ipVal)
  | '.' :: fp =>
    if fp.all isAsciiDigit && !(ip.isEmpty && fp.isEmpty) then
      some (sgn * (ipVal + ((fp.foldl (fun acc c => acc * 10 + digitVal c) 0 : ℕ) : ℚ) / ((10 : ℚ) ^ fp.length)))
    else none
  | _ => none

/-- Python `abs(x)` on a rational (spelled out so the kernel can evaluate
it on concrete inputs). -/
def ratAbs (q : ℚ) : ℚ := if q < 0 then -q else q

/-- Exact rational subtraction, via `mkRat` so the kernel can evaluate it
on concrete inputs (`ratSub_eq_sub` below shows it equals `a - b`). -/
def ratSub (a b : ℚ) : ℚ :=
  mkRat (a.num * b.den - b.num * a.den) (a.den * b.den)

/-- Python `float(v)` on a JSON value: numbers pass through, booleans
coerce, simple decimal strings parse; anything else raises (`none`). -/
def pyFloat : Json → Option ℚ
  | .num q => some q
  | .bool b => some (if b then 1 else 0)
  | .str s => parseDecimal s
  | _ => none

/-! ### Field accessors (`app_ui.py`, "Data extraction helpers") -/

/-- `_get_opm_root`: the dict where OPM result fields live — either
`doc["Measurement"]["OpmResultData"]` when both levels are dicts, the
document itself when it is a dict, or the empty dict. -/
def getOpmRoot (doc : Json) : List (String × Json) :=
  match doc with
  | .obj kvs =>
    match jLookup kvs "Measurement" with
    | some (.obj m) =>
      match jLookup m "OpmResultData" with
      | some (.obj od) => od
      | _ => kvs
    | _ => kvs
  | _ => []

/-- `_get_actual_polarity`: `Connectors.ActualConnectors.PolarityType`
under the OPM root, normalized; `None` when absent or falsy. -/
def getActualPolarity (doc : Json) : Option String :=
  match jLookup (getOpmRoot doc) "Connectors" with
  | some (.obj con) =>
    match jLookup con "ActualConnectors" with
    | some (.obj act) =>
      match jLookup act "PolarityType" with
      | some pol => if jTruthy pol then some (normalizePolarity (pyStr pol)) else none
      | none => none
    | _ => none
  | _ => none

/-- `_get_expected_polarity`: same shape via `ExpectedConnectors`. -/
def getExpectedPolarity (doc : Json) : Option String :=
  match jLookup (getOpmRoot doc) "Connectors" with
  | some (.obj con) =>
    match jLookup con "ExpectedConnectors" with
    | some (.obj exp) =>
      match jLookup exp "PolarityType" with
      | some pol => if jTruthy pol then some (normalizePolarity (pyStr pol)) else none
      | none => none
    | _ => none
  | _ => none

/-- `_get_polarity_status`: raw `Connectors.PolarityStatus` under the OPM
root when present (the source stringifies it; comparisons against the
`"Unknown"` sentinel are modelled on the raw value, which stringification
does not change for the string-valued statuses that occur). -/
def getPolarityStatus (doc : Json) : Option Json :=
  match jLookup (getOpmRoot doc) "Connectors" with
  | some (.obj con) => jLookup con "PolarityStatus"
  | _ => none

/-- The measurement rows scanned by `_get_wavelengths_nm`: the root's
`Measurements` list, else `OpticalData.Measurements`, else the empty list.
Raises (`error`) on a non-dict document, where `doc.get` throws. -/
def wlRows (doc : Json) : Except String (List Json) :=
  match doc with
  | .obj kvs =>
    .ok (match jLookup (getOpmRoot doc) "Measurements" with
      | some (.arr xs) => xs
      | _ =>
        match jLookup kvs "OpticalData" with
        | some (.obj od) =>
          match jLookup od "Measurements" with
          | some (.arr xs) => xs
          | _ => []
        | _ => [])
  | _ => .error "AttributeError: get on non-dict"

/-- The `int(w)` values collected by `_get_wavelengths_nm`'s loop: only
values for which `isinstance(w, (int, float))` holds are accepted — JSON
numbers and booleans (a Python `bool` is an `int`), never strings. -/
def wlNums (rows : List Json) : List ℤ :=
  rows.filterMap fun m =>
    match m with
    | .obj kvs =>
      match jLookup kvs "Wavelength" with
      | some (.num q) => some (pyIntOfRat q)
      | some (.bool b) => some (if b then 1 else 0)
      | _ => none
    | _ => none

/-- Insert a value into a strictly sorted duplicate-free list, keeping it
strictly sorted and duplicate-free. -/
def insertSorted (x : ℤ) : List ℤ → List ℤ
  | [] => [x]
  | y :: ys =>
    if x < y then x :: y :: ys
    else if x = y then y :: ys
    else y :: insertSorted x ys

/-- Python `sorted(set(l))`: the sorted deduplicated values of `l`. -/
def sortedDedup (l : List ℤ) : List ℤ :=
  l.foldl (fun acc x => insertSorted x acc) []

/-- `_get_wavelengths_nm`: sorted deduplicated wavelength values. -/
def getWavelengths (doc : Json) : Except String (List ℤ) :=
  (wlRows doc).map fun rows => sortedDedup (wlNums rows)

/-- The `(value_or_none, missing_flag)` produced once `_get_length_numeric_or_missing`
has found a `LengthInfo` dict with a structurally present `Length` key. -/
def lengthFromVal (val : Json) : Option ℚ × Bool :=
  match val with
  | .null => (none, true)
  | v =>
    match pyFloat v with
    | some q => (some q, false)
    | none => (none, true)

/-- One candidate `FiberLength` subtree: yields a result only when it is a
dict whose `LengthInfo` is a dict containing the `Length` key. -/
def lengthFromFL (flv : Json) : Option (Option ℚ × Bool) :=
  match flv with
  | .obj fl =>
    match jLookup fl "LengthInfo" with
    | some (.obj li) =>
      match jLookup li "Length" with
      | some val => some (lengthFromVal val)
      | none => none
    | _ => none
  | _ => none

/-- The per-row scan of `_get_length_numeric_or_missing`: first row whose
`FiberLength.LengthInfo.Length` is structurally present wins. -/
def lengthFromRows (rows : List Json) : Option (Option ℚ × Bool) :=
  rows.findSome? fun row =>
    match row with
    | .obj kvs =>
      match jLookup kvs "FiberLength" with
      | some flv => lengthFromFL flv
      | none => none
    | _ => none

/-- `_get_length_numeric_or_missing`: ordered candidate locations; the
first location where the `Length` key is structurally present wins. -/
def getLength (doc : Json) : Option ℚ × Bool :=
  match doc with
  | .obj kvs =>
    let primary :=
      match jLookup kvs "Measurement" with
      | some (.obj m) =>
        match jLookup m "OpmResultData" with
        | some (.obj od) =>
          (match jLookup od "Measurements" with
            | some (.arr rows) => lengthFromRows rows
            | _ => none).orElse fun _ =>
            match jLookup od "FiberLength" with
            | some flv => lengthFromFL flv
            | none => none
        | _ => none
      | _ => none
    let optical :=
      match jLookup kvs "OpticalData" with
      | some (.obj od2) =>
        match jLookup od2 "Measurements" with
        | some (.arr rows) => lengthFromRows rows
        | _ => none
      | _ => none
    let docLevel :=
      match jLookup kvs "FiberLength" with
      | some flv => lengthFromFL flv
      | none => none
    (((primary.orElse fun _ => optical).orElse fun _ => docLevel)).getD (none, true)
  | _ => (none, true)

/-- The `(doc.get(k) or {})` idiom from `_has_high_loss`: falsy values
become the empty dict; a truthy non-dict raises `AttributeError` at the
following `.get`, which the enclosing `try` turns into `False` (`none`). -/
def orEmptyDict (v : Option Json) : Option (List (String × Json)) :=
  match v with
  | none => some []
  | some w => if jTruthy w then (match w with | .obj kvs => some kvs | _ => none) else some []

/-- `_has_high_loss`: any `"Fail"` indication at document, result, per-
measurement or per-reading level; every failure path yields `false` via
the enclosing `try`. -/
def hasHighLoss (doc : Json) : Bool :=
  match doc with
  | .obj kvs =>
    if jLookup kvs "GlobalVerdict" = some (.str "Fail") then true
    else
      match orEmptyDict (jLookup kvs "Measurement") with
      | none => false
      | some mkvs =>
        match orEmptyDict (jLookup mkvs "OpmResultData") with
        | none => false
        | some od =>
          if jLookup od "Status" = some (.str "Fail") then true
          else
            match (jLookup od "Measurements").getD (.arr []) with
            | .arr ms =>
              ms.any fun m =>
                match m with
                | .obj mk =>
                  if jLookup mk "Status" = some (.str "Fail")
                      || jLookup mk "Verdict" = some (.str "Fail") then true
                  else
                    match (jLookup mk "Readings").getD (.arr []) with
                    | .arr rs =>
                      rs.any fun r =>
                        match r with
                        | .obj rk => jLookup rk "Status" = some (.str "Fail")
                        | _ => false
                    | _ => false
                | _ => false
            | _ => false
  | _ => false

/-! ### Comparator (`_analyze_pairs_from_opm_paths`, per-pair body) -/

/-- The comparison flags computed for one A/Z pair. -/
structure PairFlags where
  highLoss : Bool
  polarityMissing : Bool
  polarityMismatch : Bool
  polarityUnknown : Bool
  polarityIssue : Bool
  wavelengthMismatch : Bool
  lengthMissing : Bool
  lengthDelta : Option ℚ
  lengthMismatch : Bool
  lengthIssue : Bool
  mergeBlocker : Bool
  eligible : Bool
deriving DecidableEq, Repr

/-- The per-pair body of `_analyze_pairs_from_opm_paths`: computes every
comparison flag and whether the pair is appended to `eligible_pairs`.
An exception inside the body (only the wavelength extractor can raise on
the documents' shapes) propagates as `error`, which the caller's `try`
turns into a synthetic blocking mismatch. -/
def analyzePair (aDoc zDoc : Json) (thr : ℚ) : Except String PairFlags :=
  let aHL := hasHighLoss aDoc
  let zHL := hasHighLoss zDoc
  let highLoss := aHL || zHL
  let aPol := getActualPolarity aDoc
  let zPol := getActualPolarity zDoc
  let psA := getPolarityStatus aDoc
  let psZ := getPolarityStatus zDoc
  let polarityMissing := aPol.isNone || zPol.isNone
  let polarityMismatch := aPol.isSome && zPol.isSome && decide (aPol ≠ zPol)
  let polarityUnknown :=
    decide (psA = some (.str "Unknown")) || decide (psZ = some (.str "Unknown"))
  let polarityIssue := polarityMissing || polarityMismatch || polarityUnknown
  match getWavelengths aDoc with
  | .error e => .error e
  | .ok aWl =>
    match getWavelengths zDoc with
    | .error e => .error e
    | .ok zWl =>
      let wavelengthMismatch := decide (aWl ≠ zWl)
      let aLen := (getLength aDoc).1
      let aMissing := (getLength aDoc).2
      let zLen := (getLength zDoc).1
      let zMissing := (getLength zDoc).2
      let lengthMissing := aMissing || zMissing
      let lengthDelta : Option ℚ :=
        match aLen, zLen with
        | some x, some y => some (ratAbs (ratSub x y))
        | _, _ => none
      let lengthMismatch :=
        match aLen, zLen with
        | some x, some y => decide (ratAbs (ratSub x y) > thr)
        | _, _ => false
      let lengthIssue := lengthMissing || lengthMismatch
      let mergeBlocker := polarityIssue || lengthIssue || wavelengthMismatch
      let eligible :=
        if highLoss && !mergeBlocker then true
        else if !mergeBlocker && !highLoss then true
        else false
      .ok {
        highLoss := highLoss
        polarityMissing := polarityMissing
        polarityMismatch := polarityMismatch
        polarityUnknown := polarityUnknown
        polarityIssue := polarityIssue
        wavelengthMismatch := wavelengthMismatch
        lengthMissing := lengthMissing
        lengthDelta := lengthDelta
        lengthMismatch := lengthMismatch
        lengthIssue := lengthIssue
        mergeBlocker := mergeBlocker
        eligible := eligible
      }

/-! ### KeyExtractor (`_extract_az_pair_key`) -/

/-- `_extract_az_pair_key`: match the anchored pattern
`(P\x5cd+)_([AZ])(\x5cd{2})_C(\x5cd{2})` followed by `_` or end of string
(Python `$` also matches before one trailing newline), and build
`(pair_key, side)`; `(none, none)` on no match.  The character class
`[AZ]` is case-sensitive, exactly as in the source. -/
def extractAzPairKey (stem : String) : Option String × Option String :=
  match stem.data with
  | 'P' :: rest =>
    let ds := rest.takeWhile isAsciiDigit
    let rest1 := rest.dropWhile isAsciiDigit
    if ds.isEmpty then (none, none)
    else
      match rest1 with
      | '_' :: side :: d1 :: d2 :: '_' :: 'C' :: e1 :: e2 :: tail =>
        if (side = 'A' || side = 'Z') && isAsciiDigit d1 && isAsciiDigit d2
            && isAsciiDigit e1 && isAsciiDigit e2
            && (tail.isEmpty || tail.head? = some '_' || decide (tail = ['\n'])) then
          (some ⟨'P' :: ds ++ '_' :: d1 :: d2 :: '_' :: 'C' :: e1 :: [e2]⟩,
           some ⟨[side]⟩)
        else (none, none)
      | _ => (none, none)
  | _ => (none, none)

/-! ### DocumentMerger (`_merge_opm_docs`) -/

/-- The nested `_get_measurements` helper: the canonical measurements list,
or `[]` when any level is missing, mistyped (`TypeError`/`KeyError`, caught
by the helper's `try`) or not a list. -/
def getMeasurements (doc : Json) : List Json :=
  match doc with
  | .obj kvs =>
    match jLookup kvs "Measurement" with
    | some (.obj m) =>
      match jLookup m "OpmResultData" with
      | some (.obj od) =>
        match jLookup od "Measurements" with
        | some (.arr xs) => xs
        | _ => []
      | _ => []
    | _ => []
  | _ => []

/-- The `a_max` loop of `_merge_opm_docs` followed by the `<= 0` fallback:
maximum numeric `"Name"` label, replaced by 12 when that maximum is not
positive.  `m.get` raises `AttributeError` on a non-dict measurement (this
loop is not inside a `try`). -/
def computeMaxName (acc : Nat) : List Json → Except String Nat
  | [] => .ok acc
  | m :: rest =>
    match m with
    | .obj kvs =>
      computeMaxName
        (match jLookup kvs "Name" with
          | some (.str s) => if pyIsDigit s then Nat.max acc (pyStrToNat s) else acc
          | _ => acc) rest
    | _ => .error "AttributeError: get on non-dict"

/-- The accumulated maximum followed by the `a_max <= 0` fallback. -/
def computeOffset (meas : List Json) : Except String Nat :=
  (computeMaxName 0 meas).map (fun aMax => if aMax ≤ 0 then 12 else aMax)

/-- One iteration of the Z-shift loop: deep-copy the measurement and
replace a numeric `"Name"` by `str(int(name) + offset)`. -/
def shiftMeas (off : Nat) (m : Json) : Except String Json :=
  match m with
  | .obj kvs =>
    .ok (match jLookup kvs "Name" with
      | some (.str s) =>
        if pyIsDigit s then .obj (dictSet kvs "Name" (.str (toDecimal (pyStrToNat s + off))))
        else .obj kvs
      | _ => .obj kvs)
  | _ => .error "AttributeError: get on non-dict"

/-- The `for m in z_meas` shift loop: `z_shifted` in source order. -/
def shiftAll (off : Nat) : List Json → Except String (List Json)
  | [] => .ok []
  | m :: rest =>
    match shiftMeas off m with
    | .error e => .error e
    | .ok mm =>
      match shiftAll off rest with
      | .error e => .error e
      | .ok rs => .ok (mm :: rs)

/-- The guarded write
`merged["Measurement"]["OpmResultData"]["Measurements"] = ...`:
`none` when the structure is not as expected (the `except` branch). -/
def setMeasurements (doc : Json) (xs : List Json) : Option Json :=
  match doc with
  | .obj kvs =>
    match jLookup kvs "Measurement" with
    | some (.obj m) =>
      match jLookup m "OpmResultData" with
      | some (.obj od) =>
        some (.obj (dictSet kvs "Measurement"
          (.obj (dictSet m "OpmResultData"
            (.obj (dictSet od "Measurements" (.arr xs)))))))
      | _ => none
    | _ => none
  | _ => none

/-- The nested `_verdict` helper: the raw
`Measurement.OpmResultData.GlobalVerdict` value, `none` on any structural
miss.  The source stringifies the value before comparing it to `"Fail"`;
`str(v)` equals `"Fail"` exactly when the raw JSON value is the string
`"Fail"`, so comparisons are modelled on the raw value. -/
def verdictOf (doc : Json) : Option Json :=
  match doc with
  | .obj kvs =>
    match jLookup kvs "Measurement" with
    | some (.obj m) =>
      match jLookup m "OpmResultData" with
      | some (.obj od) => jLookup od "GlobalVerdict"
      | _ => none
    | _ => none
  | _ => none

/-- The guarded write
`merged["Measurement"]["OpmResultData"]["GlobalVerdict"] = "Fail"`
(`except: pass` leaves the document unchanged). -/
def setVerdictFail (doc : Json) : Json :=
  match doc with
  | .obj kvs =>
    match jLookup kvs "Measurement" with
    | some (.obj m) =>
      match jLookup m "OpmResultData" with
      | some (.obj od) =>
        .obj (dictSet kvs "Measurement"
          (.obj (dictSet m "OpmResultData"
            (.obj (dictSet od "GlobalVerdict" (.str "Fail"))))))
      | _ => doc
    | _ => doc
  | _ => doc

/-- The state visible to `_merge_opm_docs`: the two input documents and the
output under construction.  `copy.deepcopy(a_doc)` yields a value with no
sharing, so Python's in-place writes to `merged` become functional updates
of the `merged` field; the inputs are only ever read. -/
structure MergeState where
  aDoc : Json
  zDoc : Json
  merged : Json
deriving DecidableEq, Repr

/-- `_merge_opm_docs`, statement by statement, as a transition on
`MergeState`.  Every exit path returns the state with only `merged`
replaced; an uncaught `AttributeError` from the index loops propagates as
`error`. -/
def mergeStep (st : MergeState) : Except String MergeState :=
  let merged := st.aDoc
  let aMeas := getMeasurements st.aDoc
  let zMeas := getMeasurements st.zDoc
  if aMeas.isEmpty || zMeas.isEmpty then .ok { st with merged := merged }
  else
    match computeOffset aMeas with
    | .error e => .error e
    | .ok off =>
      match shiftAll off zMeas with
      | .error e => .error e
      | .ok zShifted =>
        match setMeasurements merged (aMeas ++ zShifted) with
        | none => .ok { st with merged := merged }
        | some m2 =>
          if verdictOf st.aDoc = some (.str "Fail") || verdictOf st.zDoc = some (.str "Fail") then
            .ok { st with merged := setVerdictFail m2 }
          else .ok { st with merged := m2 }

/-- `_merge_opm_docs` as a function on documents. -/
def mergeOpmDocs (aDoc zDoc : Json) : Except String Json :=
  (mergeStep { aDoc := aDoc, zDoc := zDoc, merged := .null }).map MergeState.merged

/-- The `"Name"` labels of a measurement list, in order (`none` for a
measurement without one). -/
def nameLabels (meas : List Json) : List (Option Json) :=
  meas.map fun m =>
    match m with
    | .obj kvs => jLookup kvs "Name"
    | _ => none

/-- The numeric value of a measurement's `"Name"` label, when it is a
digit string. -/
def nameValue (m : Json) : Option Nat :=
  match m with
  | .obj kvs =>
    match jLookup kvs "Name" with
    | some (.str s) => if pyIsDigit s then some (pyStrToNat s) else none
    | _ => none
  | _ => none

/-- Modelled from the spec: "`offset` = maximum numeric fiber-index label
found in `base`'s measurements; if none parse as numeric, fall back to a
fixed default (12)".  Stated from the spec's words for comparison with the
source's `computeOffset`. -/
def specOffset (meas : List Json) : Nat :=
  let vals := meas.filterMap nameValue
  if vals.isEmpty then 12 else vals.foldr Nat.max 0

/-- The maximum numeric fiber-index label value of a measurement list
(0 when no label parses as numeric). -/
def maxNumericLabel (meas : List Json) : Nat :=
  (meas.filterMap nameValue).foldr Nat.max 0

/-! ### PXM→OPM mapper (`mapper.py`) -/

/-- `OPM_FIELD_ORDER` from `mapper.py`. -/
def OPM_FIELD_ORDER : List String :=
  ["JsonVersion", "TestDateTime", "MeasurementId", "MeasurementName",
   "Identification", "Identifiers", "Hardware", "Reporting", "Context",
   "Measurement", "GlobalVerdict"]

/-- `_as_dict`: the value as a dict, or the empty dict. -/
def asDict : Json → List (String × Json)
  | .obj kvs => kvs
  | _ => []

/-- `_normalize_identification`: shallow-copy, drop the geolocation keys,
map the lowercase Exchange keys to schema-style keys, drop the lowercase
originals. -/
def normalizeIdentification (ident : Json) : List (String × Json) :=
  let d := asDict ident
  let d := dictRemove d "Geolocation"
  let d := dictRemove d "GeolocationDetails"
  let d :=
    if !hasKey d "CompanyName" && hasKey d "company" then
      dictSet d "CompanyName" ((jLookup d "company").getD .null)
    else d
  let d :=
    if !hasKey d "CustomerName" && hasKey d "customer" then
      dictSet d "CustomerName" ((jLookup d "customer").getD .null)
    else d
  let d := dictRemove d "company"
  let d := dictRemove d "customer"
  d

/-- The field loop of `map_pxm_json_to_opm`: raise on the first missing
field (in `OPM_FIELD_ORDER` order), otherwise emit `(field, value)` in
order, normalizing `Identification`. -/
def mapLoop (brief : List (String × Json)) : List String → Except String (List (String × Json))
  | [] => .ok []
  | f :: fs =>
    if hasKey brief f then
      let v :=
        if f = "Identification" then Json.obj (normalizeIdentification ((jLookup brief f).getD .null))
        else (jLookup brief f).getD .null
      match mapLoop brief fs with
      | .ok rest => .ok ((f, v) :: rest)
      | .error e => .error e
    else .error ("Missing required field in brief: " ++ f)

/-- The `brief` section of a source mapping, as a dict. -/
def briefOf (src : List (String × Json)) : List (String × Json) :=
  asDict ((jLookup src "brief").getD .null)

/-- `map_pxm_json_to_opm`: `brief` is authoritative; `ValueError` becomes
`error`. -/
def mapPxmJsonToOpm (src : List (String × Json)) : Except String (List (String × Json)) :=
  if hasKey src "brief" then mapLoop (briefOf src) OPM_FIELD_ORDER
  else .error "Source JSON missing required brief section"

/-! ### Concrete test documents (inputs for witnesses and counterexamples) -/

/-- A well-formed measurement row. -/
def testMeas (n : String) (wl len : ℚ) (status : String) : Json :=
  .obj [("Name", .str n), ("Wavelength", .num wl), ("Status", .str status),
        ("FiberLength", .obj [("LengthInfo", .obj [("Length", .num len)])])]

/-- A well-formed document in the full OPM shape. -/
def testDoc (pol : String) (meas : List Json) (verdict : String) : Json :=
  .obj [("Measurement", .obj [("OpmResultData", .obj [
    ("Connectors", .obj [
      ("ActualConnectors", .obj [("PolarityType", .str pol)]),
      ("ExpectedConnectors", .obj [("PolarityType", .str pol)]),
      ("PolarityStatus", .str "Ok")]),
    ("Measurements", .arr meas),
    ("GlobalVerdict", .str verdict)])])]

/-- A clean document with the given index labels and verdict. -/
def docWith (names : List String) (verdict : String) : Json :=
  testDoc "MPO B" (names.map fun n => testMeas n 1310 10 "Pass") verdict

/-- A document whose measurement sequence repeats the index label `"1"`. -/
def dupNameDoc : Json := docWith ["1", "1"] "Pass"

/-- A clean single-measurement document. -/
def oneNameDoc : Json := docWith ["1"] "Pass"

/-- A clean document with index labels `"1"`..`"12"`. -/
def twelveDoc : Json :=
  docWith ((List.range 12).map fun i => toDecimal (i + 1)) "Pass"

/-- A document whose only index label is the digit string `"0"`. -/
def zeroNameDoc : Json := docWith ["0"] "Pass"

/-- A clean document except that one reading has `Status = "Fail"`
(high loss without any merge blocker). -/
def highLossDoc : Json := testDoc "MPO B" [testMeas "1" 1310 10 "Fail"] "Pass"

/-- A clean document with the given polarity string. -/
def polDoc (pol : String) : Json := testDoc pol [testMeas "1" 1310 10 "Pass"] "Pass"

/-- A clean document with the given fiber length. -/
def lenDoc (len : ℚ) : Json := testDoc "MPO B" [testMeas "1" 1310 len "Pass"] "Pass"

/-- A document whose wavelengths are the string-encoded `"1310"`. -/
def wlStrDoc : Json :=
  .obj [("Measurement", .obj [("OpmResultData", .obj [
    ("Measurements", .arr [.obj [("Name", .str "1"), ("Wavelength", .str "1310")]])])])]

/-- A document whose wavelengths are the numeric `1310`. -/
def wlNumDoc : Json :=
  .obj [("Measurement", .obj [("OpmResultData", .obj [
    ("Measurements", .arr [.obj [("Name", .str "1"), ("Wavelength", .num 1310)]])])])]

/-- A document listing wavelengths `1310, 1550` in that order. -/
def wlOrderDoc1 : Json :=
  testDoc "MPO B" [testMeas "1" 1310 10 "Pass", testMeas "2" 1550 10 "Pass"] "Pass"

/-- A document listing wavelengths `1550, 1310` in the opposite order. -/
def wlOrderDoc2 : Json :=
  testDoc "MPO B" [testMeas "1" 1550 10 "Pass", testMeas "2" 1310 10 "Pass"] "Pass"

/-- A complete PXM source mapping whose `Identification` carries the
normalized-away keys. -/
def pxmSrc : List (String × Json) :=
  [("brief", .obj [
    ("JsonVersion", .str "1"), ("TestDateTime", .str "t"),
    ("MeasurementId", .str "m"), ("MeasurementName", .str "n"),
    ("Identification", .obj [("JobId", .str "j"), ("Geolocation", .str "g"),
      ("GeolocationDetails", .str "gd"), ("company", .str "co"),
      ("customer", .str "cu")]),
    ("Identifiers", .null), ("Hardware", .null), ("Reporting", .null),
    ("Context", .null), ("Measurement", .null), ("GlobalVerdict", .str "Pass")])]

/-! ## Helper lemmas -/

theorem jLookup_dictSet_self (d : List (String × Json)) (k : String) (v : Json) :
    jLookup (dictSet d k v) k = some v := by
  induction d with
  | nil => simp [dictSet, jLookup]
  | cons kv rest ih =>
    obtain ⟨k', v'⟩ := kv
    by_cases h : k' = k
    · simp [dictSet, h, jLookup]
    · simp [dictSet, h, jLookup, ih]

theorem jLookup_dictSet_ne (d : List (String × Json)) (k k' : String) (v : Json)
    (h : k' ≠ k) : jLookup (dictSet d k v) k' = jLookup d k' := by
  induction d with
  | nil => simp [dictSet, jLookup, Ne.symm h]
  | cons kv rest ih =>
    obtain ⟨k0, v0⟩ := kv
    by_cases h0 : k0 = k
    · subst h0
      simp [dictSet, jLookup, Ne.symm h]
    · simp only [dictSet, if_neg h0]
      by_cases h1 : k0 = k'
      · simp [jLookup, h1]
      · simp [jLookup, h1, ih]

theorem hasKey_dictSet (d : List (String × Json)) (k k' : String) (v : Json) :
    hasKey (dictSet d k v) k' = (decide (k' = k) || hasKey d k') := by
  by_cases h : k' = k
  · subst h
    simp [hasKey, jLookup_dictSet_self]
  · simp [hasKey, jLookup_dictSet_ne d k k' v h, h]

theorem jLookup_dictRemove_self (d : List (String × Json)) (k : String) :
    jLookup (dictRemove d k) k = none := by
  induction d with
  | nil => simp [dictRemove, jLookup]
  | cons kv rest ih =>
    obtain ⟨k0, v0⟩ := kv
    by_cases h : k0 = k
    · simpa [dictRemove, h] using ih
    · simpa [dictRemove, h, jLookup] using ih

theorem jLookup_dictRemove_ne (d : List (String × Json)) (k k' : String) (h : k' ≠ k) :
    jLookup (dictRemove d k) k' = jLookup d k' := by
  induction d with
  | nil => simp [dictRemove, jLookup]
  | cons kv rest ih =>
    obtain ⟨k0, v0⟩ := kv
    by_cases h0 : k0 = k
    · subst h0
      rw [show dictRemove ((k0, v0) :: rest) k0 = dictRemove rest k0 by simp [dictRemove]]
      rw [ih]
      simp [jLookup, Ne.symm h]
    · rw [show dictRemove ((k0, v0) :: rest) k = (k0, v0) :: dictRemove rest k by
        simp [dictRemove, h0]]
      by_cases h1 : k0 = k'
      · simp [jLookup, h1]
      · simp [jLookup, h1, ih]

theorem hasKey_dictRemove_self (d : List (String × Json)) (k : String) :
    hasKey (dictRemove d k) k = false := by
  simp [hasKey, jLookup_dictRemove_self]

theorem hasKey_dictRemove_ne (d : List (String × Json)) (k k' : String) (h : k' ≠ k) :
    hasKey (dictRemove d k) k' = hasKey d k' := by
  simp [hasKey, jLookup_dictRemove_ne d k k' h]

/-! Decimal representation round-trip: `int(str(n)) = n`. -/

theorem digitVal_decDigit (d : Nat) (h : d < 10) : digitVal (decDigit d) = d := by
  interval_cases d <;> decide

theorem decode_toDecimalFuel (fuel : Nat) :
    ∀ n, n ≤ fuel → (toDecimalFuel fuel n).foldl (fun acc c => acc * 10 + digitVal c) 0 = n := by
  induction fuel with
  | zero =>
    intro n h
    have : n = 0 := Nat.le_zero.mp h
    subst this
    simp [toDecimalFuel]
  | succ fuel ih =>
    intro n h
    rw [toDecimalFuel]
    by_cases h0 : n = 0
    · simp [h0]
    · rw [if_neg h0, List.foldl_append]
      have hlt : n / 10 ≤ fuel := by
        have := Nat.div_lt_self (Nat.pos_of_ne_zero h0) (show 1 < 10 by norm_num)
        omega
      rw [ih (n / 10) hlt]
      simp only [List.foldl_cons, List.foldl_nil]
      rw [digitVal_decDigit _ (Nat.mod_lt _ (by norm_num))]
      have := Nat.div_add_mod n 10
      omega

theorem pyStrToNat_toDecimal (n : Nat) : pyStrToNat (toDecimal n) = n := by
  unfold toDecimal
  by_cases h : n = 0
  · subst h; decide
  · simp only [if_neg h]
    exact decode_toDecimalFuel n n le_rfl

theorem toDecimal_injective : Function.Injective toDecimal := by
  intro a b h
  have := pyStrToNat_toDecimal a
  rw [h, pyStrToNat_toDecimal] at this
  exact this.symm

theorem ratSub_eq_sub (a b : ℚ) : ratSub a b = a - b := by
  rw [ratSub, Rat.mkRat_eq_div]
  rw [show a - b = (a.num : ℚ) / a.den - (b.num : ℚ) / b.den by
    rw [Rat.num_div_den, Rat.num_div_den]]
  have ha : (a.den : ℚ) ≠ 0 := Nat.cast_ne_zero.mpr a.den_nz
  have hb : (b.den : ℚ) ≠ 0 := Nat.cast_ne_zero.mpr b.den_nz
  field_simp
  ring

theorem ratAbs_eq_abs (q : ℚ) : ratAbs q = |q| := by
  unfold ratAbs
  rcases lt_or_ge q 0 with h | h
  · rw [if_pos h, abs_of_neg h]
  · rw [if_neg (not_lt.mpr h), abs_of_nonneg h]

/-! ## Claim C8 — merge eligibility is exactly the absence of a merge
blocker, independently of high loss -/

/-- C8: for every compared pair, the pair is appended to `eligible_pairs`
if and only if its merge-blocker flag (polarity issue OR wavelength
mismatch OR length issue) is false; in particular a pair with
`high_loss = true` and no blocking issue is still eligible. -/
theorem C8_eligible_iff_no_blocker (a z : Json) (t : ℚ) (fl : PairFlags)
    (h : analyzePair a z t = .ok fl) :
    fl.eligible = !fl.mergeBlocker ∧
      (fl.highLoss = true → fl.mergeBlocker = false → fl.eligible = true) := by
  have hmain : fl.eligible = !fl.mergeBlocker := by
    unfold analyzePair at h
    cases hwa : getWavelengths a with
    | error e => rw [hwa] at h; exact absurd h (by simp)
    | ok aWl =>
      cases hwz : getWavelengths z with
      | error e => rw [hwa, hwz] at h; exact absurd h (by simp)
      | ok zWl =>
        rw [hwa, hwz] at h
        simp only [Except.ok.injEq] at h
        subst h
        simp only []
        generalize (hasHighLoss a || hasHighLoss z) = hl
        generalize hb : (_ || _ || _ : Bool) = b
        cases hl <;> cases b <;> rfl
  refine ⟨hmain, fun _ hb => ?_⟩
  rw [hmain, hb]
  rfl

/-- Witness for C8: a concrete pair with a failed reading (high loss) and
no polarity/wavelength/length issue is eligible. -/
theorem C8_witness :
    (analyzePair highLossDoc highLossDoc (mkRat 1 4)).map PairFlags.eligible = .ok true ∧
    (analyzePair highLossDoc highLossDoc (mkRat 1 4)).map PairFlags.highLoss = .ok true ∧
    (analyzePair highLossDoc highLossDoc (mkRat 1 4)).map PairFlags.mergeBlocker = .ok false := by
  have hcomp : analyzePair highLossDoc highLossDoc (mkRat 1 4) =
      .ok ⟨true, false, false, false, false, false, false, some 0, false, false, false, true⟩ := by
    decide
  have h8 := C8_eligible_iff_no_blocker highLossDoc highLossDoc (mkRat 1 4) _ hcomp
  rw [hcomp]
  exact ⟨congrArg Except.ok (h8.2 rfl rfl), rfl, rfl⟩

/-! ## Claim C9 — strict length-delta tolerance -/

/-- C9: with both lengths present, `length_mismatch` holds iff
`|A.length - Z.length| > t` strictly (delta equal to the tolerance is not
a mismatch), and the recorded delta is `|A.length - Z.length|`; concretely,
lengths 10.0 and 10.25 are not a mismatch at tolerance 0.25 (`mkRat 1 4`)
and are one at tolerance 0.24 (`mkRat 6 25`). -/
theorem C9_length_tolerance_strict :
    (∀ (a z : Json) (t la lz : ℚ) (fl : PairFlags), 0 ≤ t →
      analyzePair a z t = .ok fl →
      (getLength a).1 = some la → (getLength z).1 = some lz →
      ((fl.lengthMismatch = true ↔ |la - lz| > t) ∧ fl.lengthDelta = some |la - lz|))
    ∧ (analyzePair (lenDoc 10) (lenDoc (mkRat 41 4)) (mkRat 1 4)).map PairFlags.lengthMismatch
        = .ok false
    ∧ (analyzePair (lenDoc 10) (lenDoc (mkRat 41 4)) (mkRat 6 25)).map PairFlags.lengthMismatch
        = .ok true := by
  refine ⟨?_, by decide, by decide⟩
  intro a z t la lz fl _ h hla hlz
  unfold analyzePair at h
  cases hwa : getWavelengths a with
  | error e => rw [hwa] at h; exact absurd h (by simp)
  | ok aWl =>
    cases hwz : getWavelengths z with
    | error e => rw [hwa, hwz] at h; exact absurd h (by simp)
    | ok zWl =>
      rw [hwa, hwz] at h
      simp only [Except.ok.injEq] at h
      subst h
      simp only [hla, hlz]
      rw [ratSub_eq_sub, ratAbs_eq_abs]
      exact ⟨decide_eq_true_iff, rfl⟩

/-- Witness for C9: the hypotheses of the universal part hold at the
concrete boundary pair. -/
theorem C9_witness :
    (analyzePair (lenDoc 10) (lenDoc (mkRat 41 4)) (mkRat 6 25)).map PairFlags.lengthMismatch
      = .ok true := by
  cases hEq : analyzePair (lenDoc 10) (lenDoc (mkRat 41 4)) (mkRat 6 25) with
  | error e =>
    have hok : (analyzePair (lenDoc 10) (lenDoc (mkRat 41 4)) (mkRat 6 25)).isOk = true := by
      decide
    rw [hEq] at hok
    exact absurd hok (by simp [Except.isOk, Except.toBool])
  | ok fl =>
    have h9 := (C9_length_tolerance_strict.1 (lenDoc 10) (lenDoc (mkRat 41 4)) (mkRat 6 25)
      10 (mkRat 41 4) fl (by decide) hEq (by decide) (by decide)).1
    have hflag : fl.lengthMismatch = true := by
      refine h9.mpr ?_
      have h1 : (mkRat 41 4 : ℚ) = 41 / 4 := by rw [Rat.mkRat_eq_div]; norm_num
      have h2 : (mkRat 6 25 : ℚ) = 6 / 25 := by rw [Rat.mkRat_eq_div]; norm_num
      rw [h1, h2, show (10 : ℚ) - 41 / 4 = -(1 / 4) by norm_num, abs_neg,
        abs_of_nonneg (by norm_num : (0 : ℚ) ≤ 1 / 4)]
      norm_num
    simp only [Except.map]
    rw [hflag]

/-! ## Claim C3 — wavelength sets -/

theorem mem_insertSorted (a x : ℤ) (l : List ℤ) :
    x ∈ insertSorted a l ↔ x = a ∨ x ∈ l := by
  induction l with
  | nil => simp [insertSorted]
  | cons y ys ih =>
    by_cases h1 : a < y
    · simp [insertSorted, h1]
    · by_cases h2 : a = y
      · subst h2
        simp only [insertSorted, if_neg h1, if_pos rfl]
        constructor
        · exact fun h => Or.inr h
        · rintro (h | h)
          · subst h; exact List.mem_cons_self _ _
          · exact h
      · simp only [insertSorted, if_neg h1, if_neg h2, List.mem_cons, ih]
        tauto

theorem sorted_insertSorted (a : ℤ) (l : List ℤ)
    (h : List.Sorted (· < ·) l) : List.Sorted (· < ·) (insertSorted a l) := by
  induction l with
  | nil => simp [insertSorted]
  | cons y ys ih =>
    rw [List.sorted_cons] at h
    obtain ⟨hy, hys⟩ := h
    by_cases h1 : a < y
    · rw [insertSorted, if_pos h1, List.sorted_cons]
      refine ⟨?_, List.sorted_cons.mpr ⟨hy, hys⟩⟩
      intro b hb
      rcases List.mem_cons.mp hb with hb | hb
      · subst hb; exact h1
      · exact h1.trans (hy b hb)
    · by_cases h2 : a = y
      · rw [insertSorted, if_neg h1, if_pos h2]
        exact List.sorted_cons.mpr ⟨hy, hys⟩
      · rw [insertSorted, if_neg h1, if_neg h2, List.sorted_cons]
        refine ⟨?_, ih hys⟩
        intro b hb
        rcases (mem_insertSorted a b ys).mp hb with hb | hb
        · subst hb
          exact lt_of_le_of_ne (not_lt.mp h1) (Ne.symm h2)
        · exact hy b hb

theorem mem_sortedDedup_go (l : List ℤ) :
    ∀ acc x, (x ∈ l.foldl (fun acc v => insertSorted v acc) acc) ↔ x ∈ acc ∨ x ∈ l := by
  induction l with
  | nil => simp
  | cons y ys ih =>
    intro acc x
    simp only [List.foldl_cons, ih, mem_insertSorted, List.mem_cons]
    tauto

theorem sorted_sortedDedup_go (l : List ℤ) :
    ∀ acc, List.Sorted (· < ·) acc →
      List.Sorted (· < ·) (l.foldl (fun acc v => insertSorted v acc) acc) := by
  induction l with
  | nil => intro acc h; exact h
  | cons y ys ih =>
    intro acc h
    exact ih _ (sorted_insertSorted y acc h)

theorem mem_sortedDedup (l : List ℤ) (x : ℤ) : x ∈ sortedDedup l ↔ x ∈ l := by
  unfold sortedDedup
  rw [mem_sortedDedup_go]
  simp

theorem sorted_sortedDedup (l : List ℤ) : List.Sorted (· < ·) (sortedDedup l) :=
  sorted_sortedDedup_go l [] (List.sorted_nil)

theorem sortedDedup_perm_invariant (l1 l2 : List ℤ) (h : l1.Perm l2) :
    sortedDedup l1 = sortedDedup l2 := by
  haveI : IsAntisymm ℤ (· < ·) := ⟨fun a b h1 h2 => absurd h2 (lt_asymm h1)⟩
  refine List.eq_of_perm_of_sorted ?_ (sorted_sortedDedup l1) (sorted_sortedDedup l2)
  refine (List.perm_ext_iff_of_nodup (sorted_sortedDedup l1).nodup
    (sorted_sortedDedup l2).nodup).mpr ?_
  intro x
  rw [mem_sortedDedup, mem_sortedDedup]
  exact ⟨fun hx => h.mem_iff.mp hx, fun hx => h.mem_iff.mpr hx⟩

/-- C3 (amended): the extractor accepts only numerically typed wavelength
values (`isinstance(w, (int, float))`; numeric strings are skipped), and
deduplicates them into a sorted set, so two documents whose numerically
typed wavelength entries are permutations of one multiset compare as
equal: `wavelength_mismatch = false`. -/
theorem C3_wavelength_order_independent (a z : Json) (ra rz : List Json)
    (hra : wlRows a = .ok ra) (hrz : wlRows z = .ok rz)
    (hperm : (wlNums ra).Perm (wlNums rz)) :
    getWavelengths a = getWavelengths z ∧
      ∀ (t : ℚ) (fl : PairFlags), analyzePair a z t = .ok fl →
        fl.wavelengthMismatch = false := by
  have heq : getWavelengths a = getWavelengths z := by
    unfold getWavelengths
    rw [hra, hrz]
    simp only [Except.map]
    rw [sortedDedup_perm_invariant _ _ hperm]
  refine ⟨heq, ?_⟩
  intro t fl h
  unfold analyzePair at h
  cases hwa : getWavelengths a with
  | error e => rw [hwa] at h; exact absurd h (by simp)
  | ok aWl =>
    cases hwz : getWavelengths z with
    | error e => rw [hwa, hwz] at h; exact absurd h (by simp)
    | ok zWl =>
      rw [hwa, hwz] at h
      simp only [Except.ok.injEq] at h
      subst h
      simp only []
      have : aWl = zWl := by
        rw [hwa, hwz] at heq
        exact Except.ok.inj heq
      simp [this]

/-- Counterexample for C3 as stated: a numeric-string wavelength `"1310"`
is not extracted (the claim says both encodings are accepted), so a
string-encoded document and a number-encoded document with the same
numeric wavelength multiset report `wavelength_mismatch = true`. -/
theorem C3_counterexample :
    getWavelengths wlStrDoc = .ok [] ∧
    getWavelengths wlNumDoc = .ok [1310] ∧
    (analyzePair wlStrDoc wlNumDoc (mkRat 1 4)).map PairFlags.wavelengthMismatch
      = .ok true := by
  refine ⟨by decide, by decide, by decide⟩

/-- Witness for C3: two documents listing wavelengths `1310, 1550` and
`1550, 1310` compare as equal. -/
theorem C3_witness :
    getWavelengths wlOrderDoc1 = getWavelengths wlOrderDoc2 ∧
    (analyzePair wlOrderDoc1 wlOrderDoc2 (mkRat 1 4)).map PairFlags.wavelengthMismatch
      = .ok false := by
  have hra : wlRows wlOrderDoc1
      = .ok [testMeas "1" 1310 10 "Pass", testMeas "2" 1550 10 "Pass"] := by decide
  have hrz : wlRows wlOrderDoc2
      = .ok [testMeas "1" 1550 10 "Pass", testMeas "2" 1310 10 "Pass"] := by decide
  have h1 : wlNums [testMeas "1" 1310 10 "Pass", testMeas "2" 1550 10 "Pass"]
      = [1310, 1550] := by decide
  have h2 : wlNums [testMeas "1" 1550 10 "Pass", testMeas "2" 1310 10 "Pass"]
      = [1550, 1310] := by decide
  have hperm : (wlNums [testMeas "1" 1310 10 "Pass", testMeas "2" 1550 10 "Pass"]).Perm
      (wlNums [testMeas "1" 1550 10 "Pass", testMeas "2" 1310 10 "Pass"]) := by
    rw [h1, h2]
    exact List.Perm.swap 1550 1310 []
  have hc := C3_wavelength_order_independent wlOrderDoc1 wlOrderDoc2 _ _ hra hrz hperm
  refine ⟨hc.1, ?_⟩
  cases hEq : analyzePair wlOrderDoc1 wlOrderDoc2 (mkRat 1 4) with
  | error e =>
    have hok : (analyzePair wlOrderDoc1 wlOrderDoc2 (mkRat 1 4)).isOk = true := by decide
    rw [hEq] at hok
    exact absurd hok (by simp [Except.isOk, Except.toBool])
  | ok fl =>
    have := hc.2 (mkRat 1 4) fl hEq
    simp only [Except.map]
    rw [this]

/-! ## Claim C6 — the merge offset -/

theorem natMax_zero_left (a : Nat) : Nat.max 0 a = a := by
  simp [Nat.max_def]

theorem natMax_assoc (a b c : Nat) :
    Nat.max (Nat.max a b) c = Nat.max a (Nat.max b c) := by
  simp only [Nat.max_def]
  split_ifs <;> omega

theorem le_natMax_left (a b : Nat) : a ≤ Nat.max a b := by
  simp only [Nat.max_def]
  split_ifs <;> omega

theorem le_natMax_right (a b : Nat) : b ≤ Nat.max a b := by
  simp only [Nat.max_def]
  split_ifs <;> omega

theorem computeMaxName_ok (l : List Json) :
    ∀ acc v, computeMaxName acc l = .ok v → v = Nat.max acc (maxNumericLabel l) := by
  induction l with
  | nil =>
    intro acc v h
    simp only [computeMaxName, Except.ok.injEq] at h
    subst h
    simp [maxNumericLabel, Nat.max_def]
  | cons m rest ih =>
    intro acc v h
    cases m with
    | obj kvs =>
      simp only [computeMaxName] at h
      have hv := ih _ v h
      rw [hv]
      unfold maxNumericLabel
      rw [List.filterMap_cons]
      cases hn : jLookup kvs "Name" with
      | none => simp [nameValue, hn]
      | some nv =>
        cases nv with
        | str s =>
          by_cases hd : pyIsDigit s = true
          · simp only [nameValue, hn, hd, if_true, List.foldr_cons]
            exact natMax_assoc acc (pyStrToNat s) _
          · rw [Bool.not_eq_true] at hd
            simp [nameValue, hn, hd]
        | null => simp [nameValue, hn]
        | bool b => simp [nameValue, hn]
        | num q => simp [nameValue, hn]
        | arr xs => simp [nameValue, hn]
        | obj o => simp [nameValue, hn]
    | null => exact absurd h (by simp [computeMaxName])
    | bool b => exact absurd h (by simp [computeMaxName])
    | num q => exact absurd h (by simp [computeMaxName])
    | str s => exact absurd h (by simp [computeMaxName])
    | arr xs => exact absurd h (by simp [computeMaxName])

theorem computeOffset_ok_eq (meas : List Json) (off : Nat)
    (h : computeOffset meas = .ok off) :
    off = if maxNumericLabel meas = 0 then 12 else maxNumericLabel meas := by
  unfold computeOffset at h
  cases hm : computeMaxName 0 meas with
  | error e => rw [hm] at h; exact absurd h (by simp [Except.map])
  | ok v =>
    rw [hm] at h
    simp only [Except.map, Except.ok.injEq] at h
    have hv := computeMaxName_ok meas 0 v hm
    rw [natMax_zero_left] at hv
    subst hv
    rw [← h]
    by_cases h0 : maxNumericLabel meas = 0
    · simp [h0]
    · rw [if_neg h0, if_neg (by omega : ¬ maxNumericLabel meas ≤ 0)]

/-- C6 (amended): when the `a_max` loop completes, the offset is the
maximum numeric fiber-index label of the base measurements whenever that
maximum is positive, and the fixed default 12 whenever no label parses to
a positive value (a label `"0"` parses as numeric yet still triggers the
fallback). -/
theorem C6_offset_max_or_default (meas : List Json) (off : Nat)
    (h : computeOffset meas = .ok off) :
    off = if maxNumericLabel meas = 0 then 12 else maxNumericLabel meas :=
  computeOffset_ok_eq meas off h

/-- Counterexample for C6 as stated: the digit label `"0"` parses as
numeric, yet the offset is the fallback 12 rather than the maximum (0) —
the spec-modelled offset differs from the code's; Z's label `"1"` is
shifted to `"13"`, not `"1"`. -/
theorem C6_counterexample :
    computeOffset [Json.obj [("Name", Json.str "0")]] = .ok 12 ∧
    pyIsDigit "0" = true ∧
    specOffset [Json.obj [("Name", Json.str "0")]] = 0 ∧
    (mergeOpmDocs zeroNameDoc oneNameDoc).map (fun md => nameLabels (getMeasurements md))
      = .ok [some (Json.str "0"), some (Json.str "13")] := by
  refine ⟨by decide, by decide, by decide, by decide⟩

/-- Witness for C6: at a concrete measurement list with positive maximum
label 3 the offset equals that maximum. -/
theorem C6_witness :
    computeOffset [Json.obj [("Name", Json.str "3")]]
      = .ok (if maxNumericLabel [Json.obj [("Name", Json.str "3")]] = 0 then 12
             else maxNumericLabel [Json.obj [("Name", Json.str "3")]]) := by
  cases hEq : computeOffset [Json.obj [("Name", Json.str "3")]] with
  | error e =>
    have hok : (computeOffset [Json.obj [("Name", Json.str "3")]]).isOk = true := by decide
    rw [hEq] at hok
    exact absurd hok (by simp [Except.isOk, Except.toBool])
  | ok off =>
    have h6 := C6_offset_max_or_default _ off hEq
    rw [← h6]

/-! ## Claim C7 — merge purity (the inputs are never written) -/

/-- C7: every exit of `_merge_opm_docs` leaves both input documents
value-equal to their pre-merge state — the deep copy is the only value the
merge writes to. -/
theorem C7_merge_purity (st st' : MergeState) (h : mergeStep st = .ok st') :
    st'.aDoc = st.aDoc ∧ st'.zDoc = st.zDoc := by
  unfold mergeStep at h
  simp only [] at h
  by_cases he : ((getMeasurements st.aDoc).isEmpty || (getMeasurements st.zDoc).isEmpty) = true
  · rw [if_pos he] at h
    simp only [Except.ok.injEq] at h
    subst h
    exact ⟨rfl, rfl⟩
  · rw [if_neg he] at h
    cases ho : computeOffset (getMeasurements st.aDoc) with
    | error e => rw [ho] at h; exact absurd h (by simp)
    | ok off =>
      rw [ho] at h
      simp only [] at h
      cases hs : shiftAll off (getMeasurements st.zDoc) with
      | error e => rw [hs] at h; exact absurd h (by simp)
      | ok zs =>
        rw [hs] at h
        simp only [] at h
        cases hset : setMeasurements st.aDoc (getMeasurements st.aDoc ++ zs) with
        | none =>
          rw [hset] at h
          simp only [Except.ok.injEq] at h
          subst h
          exact ⟨rfl, rfl⟩
        | some m2 =>
          rw [hset] at h
          simp only [] at h
          by_cases hv : (decide (verdictOf st.aDoc = some (Json.str "Fail"))
              || decide (verdictOf st.zDoc = some (Json.str "Fail"))) = true
          · rw [if_pos hv] at h
            simp only [Except.ok.injEq] at h
            subst h
            exact ⟨rfl, rfl⟩
          · rw [if_neg hv] at h
            simp only [Except.ok.injEq] at h
            subst h
            exact ⟨rfl, rfl⟩

/-- Witness for C7: a concrete merge returns with both inputs unchanged. -/
theorem C7_witness :
    (mergeStep { aDoc := oneNameDoc, zDoc := dupNameDoc, merged := .null }).map MergeState.aDoc
      = .ok oneNameDoc ∧
    (mergeStep { aDoc := oneNameDoc, zDoc := dupNameDoc, merged := .null }).map MergeState.zDoc
      = .ok dupNameDoc := by
  cases hEq : mergeStep { aDoc := oneNameDoc, zDoc := dupNameDoc, merged := .null } with
  | error e =>
    have hok : (mergeStep { aDoc := oneNameDoc, zDoc := dupNameDoc, merged := Json.null }).isOk
        = true := by decide
    rw [hEq] at hok
    exact absurd hok (by simp [Except.isOk, Except.toBool])
  | ok st' =>
    have h7 := C7_merge_purity _ _ hEq
    simp only [Except.map]
    rw [h7.1, h7.2]
    exact ⟨rfl, rfl⟩

/-! ## Claim C2 — worst-case verdict propagation -/

theorem getMeasurements_ne_nil (doc : Json) (h : getMeasurements doc ≠ []) :
    ∃ kvs m od xs, doc = Json.obj kvs ∧ jLookup kvs "Measurement" = some (.obj m) ∧
      jLookup m "OpmResultData" = some (.obj od) ∧
      jLookup od "Measurements" = some (.arr xs) ∧ getMeasurements doc = xs := by
  cases doc with
  | obj kvs =>
    cases h1 : jLookup kvs "Measurement" with
    | some v1 =>
      cases v1 with
      | obj m =>
        cases h2 : jLookup m "OpmResultData" with
        | some v2 =>
          cases v2 with
          | obj od =>
            cases h3 : jLookup od "Measurements" with
            | some v3 =>
              cases v3 with
              | arr xs =>
                exact ⟨kvs, m, od, xs, rfl, h1, h2, h3, by simp [getMeasurements, h1, h2, h3]⟩
              | null => exact absurd (by simp [getMeasurements, h1, h2, h3]) h
              | bool b => exact absurd (by simp [getMeasurements, h1, h2, h3]) h
              | num q => exact absurd (by simp [getMeasurements, h1, h2, h3]) h
              | str s => exact absurd (by simp [getMeasurements, h1, h2, h3]) h
              | obj o => exact absurd (by simp [getMeasurements, h1, h2, h3]) h
            | none => exact absurd (by simp [getMeasurements, h1, h2, h3]) h
          | null => exact absurd (by simp [getMeasurements, h1, h2]) h
          | bool b => exact absurd (by simp [getMeasurements, h1, h2]) h
          | num q => exact absurd (by simp [getMeasurements, h1, h2]) h
          | str s => exact absurd (by simp [getMeasurements, h1, h2]) h
          | arr xs => exact absurd (by simp [getMeasurements, h1, h2]) h
        | none => exact absurd (by simp [getMeasurements, h1, h2]) h
      | null => exact absurd (by simp [getMeasurements, h1]) h
      | bool b => exact absurd (by simp [getMeasurements, h1]) h
      | num q => exact absurd (by simp [getMeasurements, h1]) h
      | str s => exact absurd (by simp [getMeasurements, h1]) h
      | arr xs => exact absurd (by simp [getMeasurements, h1]) h
    | none => exact absurd (by simp [getMeasurements, h1]) h
  | null => exact absurd (by simp [getMeasurements]) h
  | bool b => exact absurd (by simp [getMeasurements]) h
  | num q => exact absurd (by simp [getMeasurements]) h
  | str s => exact absurd (by simp [getMeasurements]) h
  | arr xs => exact absurd (by simp [getMeasurements]) h

theorem setMeasurements_some (kvs m od : List (String × Json)) (L : List Json)
    (h1 : jLookup kvs "Measurement" = some (.obj m))
    (h2 : jLookup m "OpmResultData" = some (.obj od)) :
    setMeasurements (Json.obj kvs) L
      = some (Json.obj (dictSet kvs "Measurement" (.obj (dictSet m "OpmResultData"
          (.obj (dictSet od "Measurements" (.arr L))))))) := by
  simp [setMeasurements, h1, h2]

theorem getMeasurements_updated (kvs m od : List (String × Json)) (L : List Json) :
    getMeasurements (Json.obj (dictSet kvs "Measurement" (.obj (dictSet m "OpmResultData"
        (.obj (dictSet od "Measurements" (.arr L))))))) = L := by
  simp [getMeasurements, jLookup_dictSet_self]

theorem verdictOf_updated (kvs m od : List (String × Json)) (L : List Json) :
    verdictOf (Json.obj (dictSet kvs "Measurement" (.obj (dictSet m "OpmResultData"
        (.obj (dictSet od "Measurements" (.arr L))))))) = jLookup od "GlobalVerdict" := by
  simp only [verdictOf, jLookup_dictSet_self]
  exact jLookup_dictSet_ne od "Measurements" "GlobalVerdict" (.arr L) (by decide)

theorem setVerdictFail_updated (kvs m od : List (String × Json)) (L : List Json) :
    verdictOf (setVerdictFail (Json.obj (dictSet kvs "Measurement"
        (.obj (dictSet m "OpmResultData"
          (.obj (dictSet od "Measurements" (.arr L)))))))) = some (.str "Fail") := by
  simp only [setVerdictFail, jLookup_dictSet_self]
  simp only [verdictOf, jLookup_dictSet_self]

theorem getMeasurements_setVerdictFail_updated
    (kvs m od : List (String × Json)) (L : List Json) :
    getMeasurements (setVerdictFail (Json.obj (dictSet kvs "Measurement"
        (.obj (dictSet m "OpmResultData"
          (.obj (dictSet od "Measurements" (.arr L)))))))) = L := by
  simp only [setVerdictFail, jLookup_dictSet_self]
  simp only [getMeasurements, jLookup_dictSet_self]
  rw [jLookup_dictSet_ne _ "GlobalVerdict" "Measurements" _ (by decide),
    jLookup_dictSet_self]

/-- C2: when both measurement sequences are non-empty and the merge
returns, the merged verdict is `"Fail"` whenever either source's
`GlobalVerdict` is `"Fail"`, and is the base document's verdict unchanged
otherwise. -/
theorem C2_verdict_worst_case (a z : Json)
    (ha : getMeasurements a ≠ []) (hz : getMeasurements z ≠ [])
    (m : Json) (hm : mergeOpmDocs a z = .ok m) :
    verdictOf m = if verdictOf a = some (.str "Fail") ∨ verdictOf z = some (.str "Fail")
                  then some (.str "Fail") else verdictOf a := by
  obtain ⟨kvs, mm, od, xs, hdoc, h1, h2, h3, hxs⟩ := getMeasurements_ne_nil a ha
  subst hdoc
  unfold mergeOpmDocs mergeStep at hm
  simp only [] at hm
  rw [if_neg (by simp [List.isEmpty_iff, ha, hz])] at hm
  cases ho : computeOffset (getMeasurements (Json.obj kvs)) with
  | error e => rw [ho] at hm; exact absurd hm (by simp [Except.map])
  | ok off =>
    rw [ho] at hm
    simp only [] at hm
    cases hs : shiftAll off (getMeasurements z) with
    | error e => rw [hs] at hm; exact absurd hm (by simp [Except.map])
    | ok zs =>
      rw [hs] at hm
      simp only [] at hm
      rw [setMeasurements_some kvs mm od _ h1 h2] at hm
      simp only [Except.map, Except.ok.injEq] at hm
      by_cases hv : verdictOf (Json.obj kvs) = some (.str "Fail")
          ∨ verdictOf z = some (.str "Fail")
      · rw [if_pos hv]
        rw [if_pos (by
          rcases hv with hv | hv
          · rw [hv]; simp
          · rw [hv]; simp)] at hm
        simp only [Except.ok.injEq] at hm
        rw [← hm]
        exact setVerdictFail_updated kvs mm od _
      · rw [if_neg hv]
        push_neg at hv
        rw [if_neg (by
          simp only [Bool.or_eq_true, decide_eq_true_iff]
          rintro (hc | hc)
          · exact hv.1 hc
          · exact hv.2 hc)] at hm
        simp only [Except.ok.injEq] at hm
        rw [← hm, verdictOf_updated]
        simp [verdictOf, h1, h2]

/-- Witness for C2: `Merge(Pass, Fail) = Fail`, `Merge(Fail, Pass) = Fail`,
`Merge(Pass, Pass) = Pass` on concrete documents. -/
theorem C2_witness :
    (mergeOpmDocs (docWith ["1", "2"] "Pass") (docWith ["1", "2"] "Fail")).map verdictOf
      = .ok (some (.str "Fail")) ∧
    (mergeOpmDocs (docWith ["1", "2"] "Fail") (docWith ["1", "2"] "Pass")).map verdictOf
      = .ok (some (.str "Fail")) ∧
    (mergeOpmDocs (docWith ["1", "2"] "Pass") (docWith ["1", "2"] "Pass")).map verdictOf
      = .ok (some (.str "Pass")) := by
  refine ⟨?_, by decide, by decide⟩
  cases hEq : mergeOpmDocs (docWith ["1", "2"] "Pass") (docWith ["1", "2"] "Fail") with
  | error e =>
    have hok : (mergeOpmDocs (docWith ["1", "2"] "Pass") (docWith ["1", "2"] "Fail")).isOk
        = true := by decide
    rw [hEq] at hok
    exact absurd hok (by simp [Except.isOk, Except.toBool])
  | ok m =>
    have h2 := C2_verdict_worst_case _ _ (by decide) (by decide) m hEq
    rw [if_pos (by right; decide)] at h2
    simp only [Except.map]
    rw [h2]

/-! ## Claim C5 — the A/Z pair key extractor -/

theorem takeWhile_digits_append (p : List Char) (x : Char) (t : List Char)
    (hp : ∀ c ∈ p, isAsciiDigit c = true) (hx : isAsciiDigit x = false) :
    (p ++ x :: t).takeWhile isAsciiDigit = p
      ∧ (p ++ x :: t).dropWhile isAsciiDigit = x :: t := by
  induction p with
  | nil => simp [List.takeWhile_cons, List.dropWhile_cons, hx]
  | cons c p ih =>
    have hc : isAsciiDigit c = true := hp c (List.mem_cons_self c p)
    have ih2 := ih (fun d hd => hp d (List.mem_cons_of_mem c hd))
    simp only [List.cons_append, List.takeWhile_cons, List.dropWhile_cons, hc, if_true]
    exact ⟨by rw [ih2.1], by rw [ih2.2]⟩

/-- C5 (amended): two identifier stems that are identical except for the
side letter produce the same pair key, and the side is extracted as `"A"`
or `"Z"` — for uppercase side letters only; the character class `[AZ]` is
case-sensitive, so a lowercase side letter yields `(none, none)` instead
(see the counterexample). -/
theorem C5_same_key_upper_sides (p : List Char) (t1 t2 c1 c2 : Char) (tail : List Char)
    (hp : p ≠ []) (hpd : ∀ c ∈ p, isAsciiDigit c = true)
    (h1 : isAsciiDigit t1 = true) (h2 : isAsciiDigit t2 = true)
    (h3 : isAsciiDigit c1 = true) (h4 : isAsciiDigit c2 = true)
    (ht : tail = [] ∨ tail.head? = some '_' ∨ tail = ['\n']) :
    extractAzPairKey ⟨'P' :: p ++ '_' :: 'A' :: t1 :: t2 :: '_' :: 'C' :: c1 :: c2 :: tail⟩
        = (some ⟨'P' :: p ++ '_' :: t1 :: t2 :: '_' :: 'C' :: c1 :: [c2]⟩, some "A")
    ∧ extractAzPairKey ⟨'P' :: p ++ '_' :: 'Z' :: t1 :: t2 :: '_' :: 'C' :: c1 :: c2 :: tail⟩
        = (some ⟨'P' :: p ++ '_' :: t1 :: t2 :: '_' :: 'C' :: c1 :: [c2]⟩, some "Z") := by
  have htw := takeWhile_digits_append p '_' ('A' :: t1 :: t2 :: '_' :: 'C' :: c1 :: c2 :: tail)
    hpd (by decide)
  have htwz := takeWhile_digits_append p '_' ('Z' :: t1 :: t2 :: '_' :: 'C' :: c1 :: c2 :: tail)
    hpd (by decide)
  have hguard : (tail.isEmpty || tail.head? = some '_' || decide (tail = ['\n'])) = true := by
    rcases ht with rfl | hh | rfl
    · rfl
    · simp [hh]
    · simp
  constructor
  · show extractAzPairKey ⟨'P' :: (p ++ '_' :: 'A' :: t1 :: t2 :: '_' :: 'C' :: c1 :: c2 :: tail)⟩
      = _
    unfold extractAzPairKey
    simp only [htw.1, htw.2]
    rw [if_neg (by simp [List.isEmpty_iff, hp])]
    simp [h1, h2, h3, h4, hguard]
  · show extractAzPairKey ⟨'P' :: (p ++ '_' :: 'Z' :: t1 :: t2 :: '_' :: 'C' :: c1 :: c2 :: tail)⟩
      = _
    unfold extractAzPairKey
    simp only [htwz.1, htwz.2]
    rw [if_neg (by simp [List.isEmpty_iff, hp])]
    simp [h1, h2, h3, h4, hguard]

/-- Counterexample for C5 as stated: a lowercase side letter does not match
the case-sensitive `[AZ]` class, so the stem is silently excluded rather
than being keyed like its uppercase form. -/
theorem C5_counterexample :
    extractAzPairKey "P1_a03_C01_x" = (none, none) ∧
    extractAzPairKey "P1_A03_C01_x" = (some "P1_03_C01", some "A") := by
  refine ⟨by decide, by decide⟩

/-- Witness for C5: the two sides of one concrete link stem produce the
same pair key and the right sides. -/
theorem C5_witness :
    extractAzPairKey "P1_A03_C01_x" = (some "P1_03_C01", some "A") ∧
    extractAzPairKey "P1_Z03_C01_x" = (some "P1_03_C01", some "Z") := by
  have h := C5_same_key_upper_sides ['1'] '0' '3' '0' '1' ['_', 'x'] (by decide)
    (by decide) (by decide) (by decide) (by decide) (by decide)
    (Or.inr (Or.inl (by decide)))
  exact ⟨h.1, h.2⟩

/-! ## Claim C10 — the PXM→OPM mapper -/

theorem mapLoop_ok_iff (brief : List (String × Json)) (fs : List String) :
    (mapLoop brief fs).isOk = fs.all (fun f => hasKey brief f) := by
  induction fs with
  | nil => rfl
  | cons f fs ih =>
    simp only [mapLoop, List.all_cons]
    by_cases h : hasKey brief f = true
    · rw [if_pos h, h, Bool.true_and]
      cases hl : mapLoop brief fs with
      | ok l => rw [hl] at ih; simpa [Except.isOk, Except.toBool] using ih
      | error e => rw [hl] at ih; simpa [Except.isOk, Except.toBool] using ih
    · rw [Bool.not_eq_true] at h
      rw [if_neg (by rw [h]; exact Bool.false_ne_true), h, Bool.false_and]
      rfl

theorem mapLoop_keys (brief : List (String × Json)) (fs : List String) :
    ∀ l, mapLoop brief fs = .ok l → l.map Prod.fst = fs := by
  induction fs with
  | nil =>
    intro l h
    simp only [mapLoop, Except.ok.injEq] at h
    subst h
    rfl
  | cons f fs ih =>
    intro l h
    simp only [mapLoop] at h
    by_cases hk : hasKey brief f = true
    · rw [if_pos hk] at h
      cases hl : mapLoop brief fs with
      | error e => rw [hl] at h; exact absurd h (by simp)
      | ok rest =>
        rw [hl] at h
        simp only [Except.ok.injEq] at h
        subst h
        simp only [List.map_cons]
        rw [ih rest hl]
    · rw [if_neg hk] at h
      exact absurd h (by simp)

theorem mapLoop_lookup (brief : List (String × Json)) (fs : List String) :
    ∀ l, fs.Nodup → mapLoop brief fs = .ok l → ∀ f ∈ fs,
      jLookup l f = some (if f = "Identification"
        then Json.obj (normalizeIdentification ((jLookup brief f).getD .null))
        else (jLookup brief f).getD .null) := by
  induction fs with
  | nil => intro l _ _ f hf; exact absurd hf (List.not_mem_nil f)
  | cons g gs ih =>
    intro l hnd h f hf
    simp only [mapLoop] at h
    by_cases hk : hasKey brief g = true
    · rw [if_pos hk] at h
      cases hl : mapLoop brief gs with
      | error e => rw [hl] at h; exact absurd h (by simp)
      | ok rest =>
        rw [hl] at h
        simp only [Except.ok.injEq] at h
        subst h
        rcases List.mem_cons.mp hf with rfl | hf2
        · simp [jLookup]
        · have hne : g ≠ f := by
            intro hgf
            subst hgf
            exact (List.nodup_cons.mp hnd).1 hf2
          simp only [jLookup, if_neg hne]
          exact ih rest (List.nodup_cons.mp hnd).2 hl f hf2
    · rw [if_neg hk] at h
      exact absurd h (by simp)

theorem normalizeIdentification_drops (ident : Json) (k : String)
    (hk : k = "Geolocation" ∨ k = "GeolocationDetails" ∨ k = "company" ∨ k = "customer") :
    hasKey (normalizeIdentification ident) k = false := by
  unfold normalizeIdentification
  rcases hk with rfl | rfl | rfl | rfl
  · rw [hasKey_dictRemove_ne _ _ _ (by decide), hasKey_dictRemove_ne _ _ _ (by decide)]
    split_ifs <;>
      simp [hasKey_dictSet, hasKey_dictRemove_ne _ _ _ (by decide : ("Geolocation" : String) ≠ "GeolocationDetails"),
        hasKey_dictRemove_self]
  · rw [hasKey_dictRemove_ne _ _ _ (by decide), hasKey_dictRemove_ne _ _ _ (by decide)]
    split_ifs <;> simp [hasKey_dictSet, hasKey_dictRemove_self]
  · rw [hasKey_dictRemove_ne _ _ _ (by decide), hasKey_dictRemove_self]
  · rw [hasKey_dictRemove_self]

/-- C10: the converter raises exactly when `brief` is absent or its dict
form misses one of the eleven OPM fields; on success the output's keys are
exactly the eleven fields in OPM order, each value is copied verbatim from
`brief` except `Identification`, whose normalized copy never contains
`Geolocation`, `GeolocationDetails`, `company` or `customer`. -/
theorem C10_mapper_contract (src : List (String × Json)) :
    ((mapPxmJsonToOpm src).isOk
        = (hasKey src "brief" && OPM_FIELD_ORDER.all (fun f => hasKey (briefOf src) f)))
    ∧ ∀ opm, mapPxmJsonToOpm src = .ok opm →
        opm.map Prod.fst = OPM_FIELD_ORDER
        ∧ (∀ f ∈ OPM_FIELD_ORDER, f ≠ "Identification" →
            jLookup opm f = jLookup (briefOf src) f)
        ∧ jLookup opm "Identification"
            = some (.obj (normalizeIdentification
                ((jLookup (briefOf src) "Identification").getD .null)))
        ∧ ∀ k, (k = "Geolocation" ∨ k = "GeolocationDetails"
                ∨ k = "company" ∨ k = "customer") →
            hasKey (normalizeIdentification
              ((jLookup (briefOf src) "Identification").getD .null)) k = false := by
  constructor
  · by_cases hb : hasKey src "brief" = true
    · rw [mapPxmJsonToOpm, if_pos hb, hb, Bool.true_and, mapLoop_ok_iff]
    · rw [Bool.not_eq_true] at hb
      rw [mapPxmJsonToOpm, if_neg (by rw [hb]; exact Bool.false_ne_true), hb, Bool.false_and]
      rfl
  · intro opm hopm
    have hb : hasKey src "brief" = true := by
      by_contra hb
      rw [Bool.not_eq_true] at hb
      rw [mapPxmJsonToOpm, if_neg (by rw [hb]; exact Bool.false_ne_true)] at hopm
      exact absurd hopm (by simp)
    rw [mapPxmJsonToOpm, if_pos hb] at hopm
    have hkeys := mapLoop_keys (briefOf src) OPM_FIELD_ORDER opm hopm
    have hall : OPM_FIELD_ORDER.all (fun f => hasKey (briefOf src) f) = true := by
      have h2 := mapLoop_ok_iff (briefOf src) OPM_FIELD_ORDER
      rw [hopm] at h2
      rw [← h2]
      rfl
    refine ⟨hkeys, ?_, ?_, ?_⟩
    · intro f hf hfne
      have hl := mapLoop_lookup (briefOf src) OPM_FIELD_ORDER opm (by decide) hopm f hf
      rw [if_neg hfne] at hl
      have hbk : hasKey (briefOf src) f = true :=
        (List.all_eq_true.mp hall) f hf
      obtain ⟨v, hv⟩ := Option.isSome_iff_exists.mp hbk
      rw [hl, hv]
      simp
    · have hl := mapLoop_lookup (briefOf src) OPM_FIELD_ORDER opm (by decide) hopm
        "Identification" (by decide)
      rw [if_pos rfl] at hl
      exact hl
    · intro k hk
      exact normalizeIdentification_drops _ k hk

/-- Witness for C10: a complete concrete source converts, with the
normalized identification free of the dropped keys. -/
theorem C10_witness :
    (mapPxmJsonToOpm pxmSrc).map (fun opm => opm.map Prod.fst) = .ok OPM_FIELD_ORDER ∧
    (mapPxmJsonToOpm pxmSrc).map (fun opm => jLookup opm "Identification")
      = .ok (some (.obj [("JobId", .str "j"), ("CompanyName", .str "co"),
          ("CustomerName", .str "cu")])) := by
  cases hEq : mapPxmJsonToOpm pxmSrc with
  | error e =>
    have hok : (mapPxmJsonToOpm pxmSrc).isOk = true := by decide
    rw [hEq] at hok
    exact absurd hok (by simp [Except.isOk, Except.toBool])
  | ok opm =>
    have hc := (C10_mapper_contract pxmSrc).2 opm hEq
    simp only [Except.map]
    refine ⟨by rw [hc.1], ?_⟩
    rw [hc.2.2.1]
    decide

/-! ## Claim C4 — polarity normalization -/

theorem collapseUU_uu (y : List Char) : collapseUU ('_' :: '_' :: y) = collapseUU ('_' :: y) := by
  simp [collapseUU]

theorem collapseUU_mid (x y : List Char) :
    collapseUU (x ++ '_' :: '_' :: y) = collapseUU (x ++ '_' :: y) := by
  induction x with
  | nil => exact collapseUU_uu y
  | cons c x' ih =>
    cases x' with
    | nil =>
      simp only [List.cons_append, List.nil_append]
      by_cases hc : c = '_'
      · subst hc
        exact collapseUU_uu ('_' :: y)
      · have h1 : collapseUU (c :: '_' :: '_' :: y) = c :: collapseUU ('_' :: '_' :: y) := by
          simp [collapseUU, hc]
        have h2 : collapseUU (c :: '_' :: y) = c :: collapseUU ('_' :: y) := by
          simp [collapseUU, hc]
        rw [h1, h2, collapseUU_uu]
    | cons d x'' =>
      simp only [List.cons_append] at ih ⊢
      rw [show collapseUU (c :: d :: (x'' ++ '_' :: '_' :: y))
          = if (c = '_' && d = '_') = true then collapseUU (d :: (x'' ++ '_' :: '_' :: y))
            else c :: collapseUU (d :: (x'' ++ '_' :: '_' :: y)) from rfl]
      rw [show collapseUU (c :: d :: (x'' ++ '_' :: y))
          = if (c = '_' && d = '_') = true then collapseUU (d :: (x'' ++ '_' :: y))
            else c :: collapseUU (d :: (x'' ++ '_' :: y)) from rfl]
      rw [ih]

theorem dropWhile_append_nil {α : Type} (p : α → Bool) (l m : List α)
    (h : l.dropWhile p = []) : (l ++ m).dropWhile p = m.dropWhile p := by
  induction l with
  | nil => rfl
  | cons a l ih =>
    rw [List.dropWhile_cons] at h
    by_cases ha : p a = true
    · rw [if_pos ha] at h
      rw [List.cons_append, List.dropWhile_cons, if_pos ha]
      exact ih h
    · rw [if_neg ha] at h
      exact absurd h (by simp)

theorem dropWhile_append_ne {α : Type} (p : α → Bool) (l m : List α)
    (h : l.dropWhile p ≠ []) : (l ++ m).dropWhile p = l.dropWhile p ++ m := by
  induction l with
  | nil => exact absurd rfl h
  | cons a l ih =>
    by_cases ha : p a = true
    · rw [List.dropWhile_cons, if_pos ha] at h
      rw [List.cons_append, List.dropWhile_cons, if_pos ha, List.dropWhile_cons, if_pos ha]
      exact ih h
    · rw [List.cons_append, List.dropWhile_cons, if_neg ha, List.dropWhile_cons, if_neg ha,
        List.cons_append]

/-- C4 (amended): `_normalize_polarity` strips end whitespace and collapses
every internal run of spaces to a single `_` separator — duplicating a
space next to an existing one never changes the result — but it performs
no case normalization, so polarity strings differing in letter case stay
different (see the counterexample). -/
theorem C4_space_run_invariance_no_casing :
    (∀ u v : List Char,
      normalizePolarity ⟨u ++ ' ' :: ' ' :: v⟩ = normalizePolarity ⟨u ++ ' ' :: v⟩)
    ∧ (analyzePair (polDoc "MPO  B") (polDoc "MPO B") (mkRat 1 4)).map
        PairFlags.polarityMismatch = .ok false := by
  have hws : Char.isWhitespace ' ' = true := by decide
  constructor
  · intro u v
    unfold normalizePolarity
    refine congrArg String.mk ?_
    show collapseUU (spaceToUnderscore (pyStrip (u ++ ' ' :: ' ' :: v)))
      = collapseUU (spaceToUnderscore (pyStrip (u ++ ' ' :: v)))
    by_cases hu : u.dropWhile Char.isWhitespace = []
    · unfold pyStrip
      rw [dropWhile_append_nil _ _ _ hu, dropWhile_append_nil _ _ _ hu]
      simp only [List.dropWhile_cons, hws, if_true]
    · unfold pyStrip
      rw [dropWhile_append_ne _ _ _ hu, dropWhile_append_ne _ _ _ hu]
      rw [show (u.dropWhile Char.isWhitespace ++ ' ' :: ' ' :: v).reverse
          = v.reverse ++ [' '] ++ [' '] ++ (u.dropWhile Char.isWhitespace).reverse by
        simp]
      rw [show (u.dropWhile Char.isWhitespace ++ ' ' :: v).reverse
          = v.reverse ++ [' '] ++ (u.dropWhile Char.isWhitespace).reverse by
        simp]
      by_cases hv : v.reverse.dropWhile Char.isWhitespace = []
      · rw [List.append_assoc, List.append_assoc, dropWhile_append_nil _ _ _ hv,
          List.append_assoc, dropWhile_append_nil _ _ _ hv]
        simp only [List.singleton_append, List.dropWhile_cons, if_pos hws]
      · rw [List.append_assoc, List.append_assoc, dropWhile_append_ne _ _ _ hv,
          List.append_assoc, dropWhile_append_ne _ _ _ hv]
        rw [show ((v.reverse.dropWhile Char.isWhitespace)
              ++ ([' '] ++ ([' '] ++ (u.dropWhile Char.isWhitespace).reverse))).reverse
            = u.dropWhile Char.isWhitespace ++ ' ' :: ' '
              :: (v.reverse.dropWhile Char.isWhitespace).reverse by simp]
        rw [show ((v.reverse.dropWhile Char.isWhitespace)
              ++ ([' '] ++ (u.dropWhile Char.isWhitespace).reverse)).reverse
            = u.dropWhile Char.isWhitespace ++ ' '
              :: (v.reverse.dropWhile Char.isWhitespace).reverse by simp]
        unfold spaceToUnderscore
        rw [List.map_append, List.map_append]
        rw [show List.map (fun c => if c = ' ' then '_' else c)
              (' ' :: ' ' :: (v.reverse.dropWhile Char.isWhitespace).reverse)
            = '_' :: '_' :: List.map (fun c => if c = ' ' then '_' else c)
              (v.reverse.dropWhile Char.isWhitespace).reverse by simp]
        rw [show List.map (fun c => if c = ' ' then '_' else c)
              (' ' :: (v.reverse.dropWhile Char.isWhitespace).reverse)
            = '_' :: List.map (fun c => if c = ' ' then '_' else c)
              (v.reverse.dropWhile Char.isWhitespace).reverse by simp]
        exact collapseUU_mid _ _
  · decide

/-- Counterexample for C4 as stated: the normalizer applies no canonical
casing, so two polarity strings differing only in letter case normalize
differently and do produce `polarity_mismatch`. -/
theorem C4_counterexample :
    normalizePolarity "mpo b" ≠ normalizePolarity "MPO B" ∧
    (analyzePair (polDoc "mpo b") (polDoc "MPO B") (mkRat 1 4)).map
      PairFlags.polarityMismatch = .ok true := by
  refine ⟨by decide, by decide⟩

/-! ## Claim C1 — distinct fiber-index labels after merge -/

theorem nameValue_some (m : Json) (v : Nat) (h : nameValue m = some v) :
    ∃ kvs s, m = Json.obj kvs ∧ jLookup kvs "Name" = some (.str s)
      ∧ pyIsDigit s = true ∧ pyStrToNat s = v := by
  cases m with
  | obj kvs =>
    simp only [nameValue] at h
    cases hn : jLookup kvs "Name" with
    | none => rw [hn] at h; exact absurd h (by simp)
    | some nv =>
      rw [hn] at h
      cases nv with
      | str s =>
        simp only [] at h
        by_cases hd : pyIsDigit s = true
        · rw [if_pos hd] at h
          simp only [Option.some.injEq] at h
          exact ⟨kvs, s, rfl, hn, hd, h⟩
        · rw [if_neg hd] at h
          exact absurd h (by simp)
      | null => simp at h
      | bool b => simp at h
      | num q => simp at h
      | arr xs => simp at h
      | obj o => simp at h
  | null => exact absurd h (by simp [nameValue])
  | bool b => exact absurd h (by simp [nameValue])
  | num q => exact absurd h (by simp [nameValue])
  | str s => exact absurd h (by simp [nameValue])
  | arr xs => exact absurd h (by simp [nameValue])

theorem computeMaxName_succeeds (l : List Json)
    (hl : ∀ m ∈ l, (nameValue m).isSome = true) :
    ∀ acc, ∃ v, computeMaxName acc l = .ok v := by
  induction l with
  | nil => intro acc; exact ⟨acc, rfl⟩
  | cons m rest ih =>
    intro acc
    obtain ⟨v0, hv0⟩ := Option.isSome_iff_exists.mp (hl m (List.mem_cons_self m rest))
    obtain ⟨kvs, s, rfl, hn, hd, hval⟩ := nameValue_some m v0 hv0
    simp only [computeMaxName]
    exact ih (fun m2 hm2 => hl m2 (List.mem_cons_of_mem _ hm2)) _

theorem shiftAll_ok_labels (off : Nat) (l : List Json)
    (hl : ∀ m ∈ l, (nameValue m).isSome = true) :
    ∃ zs, shiftAll off l = .ok zs ∧
      nameLabels zs = (l.filterMap nameValue).map
        (fun v => some (Json.str (toDecimal (v + off)))) := by
  induction l with
  | nil => exact ⟨[], rfl, rfl⟩
  | cons m rest ih =>
    obtain ⟨zs, hzs, hlab⟩ := ih (fun m2 hm2 => hl m2 (List.mem_cons_of_mem _ hm2))
    obtain ⟨v0, hv0⟩ := Option.isSome_iff_exists.mp (hl m (List.mem_cons_self m rest))
    obtain ⟨kvs, s, rfl, hn, hd, hval⟩ := nameValue_some _ v0 hv0
    refine ⟨Json.obj (dictSet kvs "Name" (.str (toDecimal (pyStrToNat s + off)))) :: zs, ?_, ?_⟩
    · simp only [shiftAll, shiftMeas, hn, hd, if_true]
      rw [hzs]
    · simp only [nameLabels, List.map_cons, jLookup_dictSet_self, List.filterMap_cons, hv0,
        ← hval]
      exact congrArg _ hlab

theorem le_foldr_max (v : Nat) (l : List Nat) (h : v ∈ l) : v ≤ l.foldr Nat.max 0 := by
  induction l with
  | nil => exact absurd h (List.not_mem_nil v)
  | cons a l ih =>
    rw [List.foldr_cons]
    rcases List.mem_cons.mp h with rfl | h2
    · exact le_natMax_left _ _
    · exact le_trans (ih h2) (le_natMax_right _ _)

theorem offset_bounds_names (meas : List Json) (off : Nat)
    (h : computeOffset meas = .ok off) (m : Json) (hm : m ∈ meas) (v : Nat)
    (hv : nameValue m = some v) : v ≤ off := by
  have hoff := computeOffset_ok_eq meas off h
  have hvM : v ≤ maxNumericLabel meas := by
    unfold maxNumericLabel
    exact le_foldr_max v _ (List.mem_filterMap.mpr ⟨m, hm, hv⟩)
  rw [hoff]
  by_cases h0 : maxNumericLabel meas = 0
  · rw [if_pos h0]; omega
  · rw [if_neg h0]; exact hvM

theorem label_mem_bound (meas : List Json) (off : Nat)
    (hoff : computeOffset meas = .ok off)
    (hA : ∀ m ∈ meas, (nameValue m).isSome = true)
    (x : Option Json) (hx : x ∈ nameLabels meas) :
    ∃ s, x = some (.str s) ∧ pyStrToNat s ≤ off := by
  unfold nameLabels at hx
  obtain ⟨m, hm, hxm⟩ := List.mem_map.mp hx
  obtain ⟨v0, hv0⟩ := Option.isSome_iff_exists.mp (hA m hm)
  obtain ⟨kvs, s, rfl, hn, hd, hval⟩ := nameValue_some _ _ hv0
  refine ⟨s, ?_, ?_⟩
  · rw [← hxm]
    simp [hn]
  · rw [hval]
    exact offset_bounds_names meas off hoff _ hm v0 hv0

theorem shiftedLabel_inj (off : Nat) :
    Function.Injective (fun v : Nat => some (Json.str (toDecimal (v + off)))) := by
  intro a b h
  simp only [Option.some.injEq, Json.str.injEq] at h
  have := toDecimal_injective h
  omega

/-- C1 (amended): when the base document's index labels are digit strings,
pairwise distinct as labels, and the secondary's index labels parse to
pairwise-distinct positive values, the merge succeeds and every
fiber-index label in the returned document is pairwise distinct from all
others, the secondary's labels being the base's offset shifts (the
distinctness fails without these conditions — see the counterexample,
where an eligible pair with a repeated label merges to repeated labels). -/
theorem C1_merge_labels_distinct (a z : Json)
    (hA : ∀ m ∈ getMeasurements a, (nameValue m).isSome = true)
    (hAnd : (nameLabels (getMeasurements a)).Nodup)
    (hZ : ∀ m ∈ getMeasurements z, 0 < (nameValue m).getD 0)
    (hZnd : ((getMeasurements z).filterMap nameValue).Nodup) :
    ∃ md, mergeOpmDocs a z = .ok md ∧ (nameLabels (getMeasurements md)).Nodup ∧
      (getMeasurements a ≠ [] → getMeasurements z ≠ [] →
        ∀ off, computeOffset (getMeasurements a) = .ok off →
          nameLabels (getMeasurements md)
            = nameLabels (getMeasurements a)
              ++ ((getMeasurements z).filterMap nameValue).map
                  (fun v => some (Json.str (toDecimal (v + off))))) := by
  have hZsome : ∀ m ∈ getMeasurements z, (nameValue m).isSome = true := by
    intro m hm
    have hpos := hZ m hm
    cases hnv : nameValue m with
    | none => rw [hnv] at hpos; simp at hpos
    | some v => simp
  by_cases hae : getMeasurements a = []
  · refine ⟨a, ?_, hAnd, fun hne => absurd hae hne⟩
    unfold mergeOpmDocs mergeStep
    rw [if_pos (by simp [List.isEmpty_iff, hae])]
    rfl
  · by_cases hze : getMeasurements z = []
    · refine ⟨a, ?_, hAnd, fun _ hne => absurd hze hne⟩
      unfold mergeOpmDocs mergeStep
      rw [if_pos (by simp [List.isEmpty_iff, hze])]
      rfl
    · obtain ⟨kvs, mm, od, xs, hdoc, h1, h2, h3, hxs⟩ := getMeasurements_ne_nil a hae
      subst hdoc
      obtain ⟨vmax, hvm⟩ := computeMaxName_succeeds (getMeasurements (Json.obj kvs)) hA 0
      obtain ⟨off, hoffok⟩ : ∃ off, computeOffset (getMeasurements (Json.obj kvs)) = .ok off :=
        ⟨_, by unfold computeOffset; rw [hvm]; rfl⟩
      obtain ⟨zs, hzsok, hzlab⟩ := shiftAll_ok_labels off (getMeasurements z) hZsome
      have hset := setMeasurements_some kvs mm od (getMeasurements (Json.obj kvs) ++ zs) h1 h2
      have hrun : mergeOpmDocs (Json.obj kvs) z
          = .ok (if (decide (verdictOf (Json.obj kvs) = some (Json.str "Fail"))
                || decide (verdictOf z = some (Json.str "Fail"))) = true
              then setVerdictFail (Json.obj (dictSet kvs "Measurement"
                (.obj (dictSet mm "OpmResultData" (.obj (dictSet od "Measurements"
                  (.arr (getMeasurements (Json.obj kvs) ++ zs))))))))
              else Json.obj (dictSet kvs "Measurement"
                (.obj (dictSet mm "OpmResultData" (.obj (dictSet od "Measurements"
                  (.arr (getMeasurements (Json.obj kvs) ++ zs)))))))) := by
        unfold mergeOpmDocs mergeStep
        simp only []
        rw [if_neg (by simp [List.isEmpty_iff, hae, hze])]
        rw [hoffok]
        simp only []
        rw [hzsok]
        simp only []
        rw [hset]
        simp only []
        by_cases hv : (decide (verdictOf (Json.obj kvs) = some (Json.str "Fail"))
            || decide (verdictOf z = some (Json.str "Fail"))) = true
        · rw [if_pos hv, if_pos hv]
          rfl
        · rw [if_neg hv, if_neg hv]
          rfl
      refine ⟨_, hrun, ?_, ?_⟩
      · have hgm : getMeasurements (if (decide (verdictOf (Json.obj kvs) = some (Json.str "Fail"))
              || decide (verdictOf z = some (Json.str "Fail"))) = true
            then setVerdictFail (Json.obj (dictSet kvs "Measurement"
              (.obj (dictSet mm "OpmResultData" (.obj (dictSet od "Measurements"
                (.arr (getMeasurements (Json.obj kvs) ++ zs))))))))
            else Json.obj (dictSet kvs "Measurement"
              (.obj (dictSet mm "OpmResultData" (.obj (dictSet od "Measurements"
                (.arr (getMeasurements (Json.obj kvs) ++ zs))))))))
            = getMeasurements (Json.obj kvs) ++ zs := by
          by_cases hv : (decide (verdictOf (Json.obj kvs) = some (Json.str "Fail"))
              || decide (verdictOf z = some (Json.str "Fail"))) = true
          · rw [if_pos hv]
            exact getMeasurements_setVerdictFail_updated kvs mm od _
          · rw [if_neg hv]
            exact getMeasurements_updated kvs mm od _
        rw [hgm]
        rw [show nameLabels (getMeasurements (Json.obj kvs) ++ zs)
            = nameLabels (getMeasurements (Json.obj kvs)) ++ nameLabels zs from
          List.map_append _ _ _]
        refine List.Nodup.append hAnd ?_ ?_
        · rw [hzlab]
          exact List.Nodup.map (shiftedLabel_inj off) hZnd
        · intro x hxA hxZ
          obtain ⟨s, rfl, hbound⟩ := label_mem_bound _ off hoffok hA x hxA
          rw [hzlab] at hxZ
          obtain ⟨v, hvmem, hveq⟩ := List.mem_map.mp hxZ
          simp only [Option.some.injEq, Json.str.injEq] at hveq
          have hsv : pyStrToNat s = v + off := by
            rw [← hveq, pyStrToNat_toDecimal]
          obtain ⟨m2, hm2, hnv2⟩ := List.mem_filterMap.mp hvmem
          have hvpos : 0 < v := by
            have := hZ m2 hm2
            rw [hnv2] at this
            simpa using this
          omega
      · intro _ _ off' hoff'
        rw [hoffok] at hoff'
        have : off = off' := Except.ok.inj hoff'
        subst this
        have hgm : getMeasurements (if (decide (verdictOf (Json.obj kvs) = some (Json.str "Fail"))
              || decide (verdictOf z = some (Json.str "Fail"))) = true
            then setVerdictFail (Json.obj (dictSet kvs "Measurement"
              (.obj (dictSet mm "OpmResultData" (.obj (dictSet od "Measurements"
                (.arr (getMeasurements (Json.obj kvs) ++ zs))))))))
            else Json.obj (dictSet kvs "Measurement"
              (.obj (dictSet mm "OpmResultData" (.obj (dictSet od "Measurements"
                (.arr (getMeasurements (Json.obj kvs) ++ zs))))))))
            = getMeasurements (Json.obj kvs) ++ zs := by
          by_cases hv : (decide (verdictOf (Json.obj kvs) = some (Json.str "Fail"))
              || decide (verdictOf z = some (Json.str "Fail"))) = true
          · rw [if_pos hv]
            exact getMeasurements_setVerdictFail_updated kvs mm od _
          · rw [if_neg hv]
            exact getMeasurements_updated kvs mm od _
        rw [hgm]
        rw [show nameLabels (getMeasurements (Json.obj kvs) ++ zs)
            = nameLabels (getMeasurements (Json.obj kvs)) ++ nameLabels zs from
          List.map_append _ _ _]
        rw [hzlab]

/-- Counterexample for C1 as stated: an eligible pair whose base repeats
the label `"1"` merges to a document whose labels are not pairwise
distinct. -/
theorem C1_counterexample :
    (analyzePair dupNameDoc oneNameDoc (mkRat 1 4)).map PairFlags.eligible = .ok true ∧
    (mergeOpmDocs dupNameDoc oneNameDoc).map
      (fun md => decide (nameLabels (getMeasurements md)).Nodup) = .ok false := by
  refine ⟨by decide, by decide⟩

/-- Witness for C1: merging two documents with indices 1..12 yields 24
pairwise-distinct indices, the secondary's shifted by 12. -/
theorem C1_witness :
    (mergeOpmDocs twelveDoc twelveDoc).map
      (fun md => decide (nameLabels (getMeasurements md)).Nodup) = .ok true ∧
    (mergeOpmDocs twelveDoc twelveDoc).map (fun md => nameLabels (getMeasurements md))
      = .ok ((List.range 24).map fun i => some (Json.str (toDecimal (i + 1)))) := by
  obtain ⟨md, hmd, hnd, hlab⟩ := C1_merge_labels_distinct twelveDoc twelveDoc
    (by decide) (by decide) (by decide) (by decide)
  have hoff : computeOffset (getMeasurements twelveDoc) = .ok 12 := by decide
  have hlab12 := hlab (by decide) (by decide) 12 hoff
  rw [hmd]
  simp only [Except.map]
  constructor
  · rw [decide_eq_true hnd]
  · rw [hlab12]
    decide

end J2O
